import Mathlib

/-!
Verification development for the AllezORM schema generator
(`tools/allez-orm.mjs`, which contains two concatenated revisions of the
CLI: the first with `parseFieldSpec`/`buildColumnSQL`/`main`, the second
with `parseFieldToken`/`sqlForColumn`/`generateOne`/`runFromJson`).

All JavaScript string operations are re-implemented here as structural
recursions over `List Char`, so that every definition evaluates inside the
kernel.  Fallible code paths (`die`) are modelled with `Except String`;
the file system is modelled as an association list from path to content.
-/

set_option maxHeartbeats 1000000

/-! ## Basic string machinery mirroring JavaScript semantics -/

/-- Whitespace characters stripped by `String.prototype.trim`
(ASCII fragment, which covers all inputs appearing in the tool). -/
def jsIsSpace (c : Char) : Bool :=
  c = ' ' || c = '\t' || c = '\n' || c = '\r'

/-- `trim` on a character list. -/
def chTrim (l : List Char) : List Char :=
  ((l.dropWhile jsIsSpace).reverse.dropWhile jsIsSpace).reverse

/-- JS `String.prototype.trim`. -/
def sTrim (s : String) : String := String.mk (chTrim s.data)

/-- JS `String.prototype.toLowerCase` (ASCII). -/
def sLower (s : String) : String := String.mk (s.data.map Char.toLower)

/-- JS `String.prototype.toUpperCase` (ASCII). -/
def sUpper (s : String) : String := String.mk (s.data.map Char.toUpper)

/-- Does `pre` occur at the head of `l`? -/
def isPreOf : List Char → List Char → Bool
  | [], _ => true
  | _ :: _, [] => false
  | a :: as, b :: bs => a = b && isPreOf as bs

/-- JS `String.prototype.includes` (substring occurrence). -/
def containsSeq (needle : List Char) : List Char → Bool
  | [] => isPreOf needle []
  | c :: cs => isPreOf needle (c :: cs) || containsSeq needle cs

/-- JS `s.includes(sub)` at the `String` level. -/
def strContains (s sub : String) : Bool := containsSeq sub.data s.data

/-- JS `s.startsWith(p)`. -/
def sStarts (s p : String) : Bool := isPreOf p.data s.data

/-- JS `s.endsWith(p)`. -/
def sEnds (s p : String) : Bool := isPreOf p.data.reverse s.data.reverse

/-- JS `String.prototype.split` with a single-character separator. -/
def chSplit1 (sep : Char) : List Char → List (List Char)
  | [] => [[]]
  | a :: as =>
    if a = sep then [] :: chSplit1 sep as
    else
      match chSplit1 sep as with
      | s :: ss => (a :: s) :: ss
      | [] => [[a]]

/-- JS `String.prototype.split` at the `String` level (single-char separator). -/
def sSplit1 (sep : Char) (s : String) : List String :=
  (chSplit1 sep s.data).map String.mk

/-- JS `s.split("->")` (the one two-character separator used by the tool). -/
def chSplitArrow : List Char → List (List Char)
  | [] => [[]]
  | '-' :: '>' :: rest => [] :: chSplitArrow rest
  | a :: rest =>
    match chSplitArrow rest with
    | s :: ss => (a :: s) :: ss
    | [] => [[a]]

/-- JS `s.split("->")` at the `String` level. -/
def sSplitArrow (s : String) : List String := (chSplitArrow s.data).map String.mk

/-- `s.indexOf("->") >= 0 ? (s.slice(0, i), s.slice(i+2)) : none`. -/
def afterFirstArrow : List Char → Option (List Char × List Char)
  | [] => none
  | '-' :: '>' :: rest => some ([], rest)
  | a :: rest => (afterFirstArrow rest).map (fun p => (a :: p.1, p.2))

/-- `s.indexOf(c) >= 0 ? (s.slice(0, i), s.slice(i+1)) : none`. -/
def afterFirstChar (c : Char) : List Char → Option (List Char × List Char)
  | [] => none
  | a :: rest =>
    if a = c then some ([], rest)
    else (afterFirstChar c rest).map (fun p => (a :: p.1, p.2))

/-- JS `Array.prototype.join(sep)`. -/
def joinSep (sep : String) : List String → String
  | [] => ""
  | [x] => x
  | x :: y :: xs => x ++ sep ++ joinSep sep (y :: xs)

/-- Insertion into a JS `Set` modelled as an insertion-ordered duplicate-free list. -/
def setAdd (l : List String) (x : String) : List String :=
  if l.contains x then l else l ++ [x]

/-- JS truthiness of a nullable string (`null`/`""` are falsy). -/
def optTruthy : Option String → Bool
  | some s => s ≠ ""
  | none => false

/-! ## The file system model -/

/-- The output directory contents: an association list from path to file text. -/
abbrev FS := List (String × String)

def fsGet (fs : FS) (p : String) : Option String :=
  (fs.find? (fun e => e.1 == p)).map (fun e => e.2)

def fsExists (fs : FS) (p : String) : Bool := (fsGet fs p).isSome

def fsWrite (fs : FS) (p c : String) : FS :=
  if fsExists fs p then fs.map (fun e => if e.1 == p then (p, c) else e)
  else fs ++ [(p, c)]

/-- `path.join(dir, file)` (POSIX flavour, no normalisation needed here). -/
def pjoin (d f : String) : String := d ++ "/" ++ f

/-! ## Revision 2: `parseFieldToken`, `sqlForColumn`, `generateOne` -/

structure FKRef2 where
  table : String
  column : String
deriving Repr, DecidableEq

structure Field2 where
  name : String
  type : String
  notnull : Bool
  unique : Bool
  fk : Option FKRef2
  pk : Bool
deriving Repr, DecidableEq

/-- JS `s.replace(/[!+]+$/, "")`. -/
def dropTrailingBangPlus (s : String) : String :=
  String.mk ((s.data.reverse.dropWhile (fun c => c = '!' || c = '+')).reverse)

/-- `parseFieldToken` from the second revision: accepts
`col[:type][!][+][->target]` or `col:type,unique,notnull`; returns `none`
for the empty token (JS `if (!tok) return null`). -/
def parseFieldToken (tok : String) : Option Field2 :=
  if tok = "" then none
  else
    -- split on "," for the attribute list
    let mainFlags : String × List String :=
      if strContains tok "," then
        let segs := sSplit1 ',' tok
        (segs.headD "", segs.tail.map (fun s => sLower (sTrim s)))
      else (tok, [])
    let main := mainFlags.1
    let flags := mainFlags.2
    -- ->target
    let nameFk : String × Option String :=
      match afterFirstArrow main.data with
      | some p => (String.mk p.1, some (sTrim (String.mk p.2)))
      | none => (main, none)
    let fkTarget := nameFk.2
    -- :type
    let nameType : String × Option String :=
      match afterFirstChar ':' nameFk.1.data with
      | some p => (sTrim (String.mk p.1), some (sTrim (String.mk p.2)))
      | none => (nameFk.1, none)
    let name1 := nameType.1
    let typeOpt := nameType.2
    -- flags read from both the name and the type segments
    let typeTruthy : Bool := match typeOpt with | some t => t ≠ "" | none => false
    let nameHasBang := name1.data.contains '!'
    let nameHasPlus := name1.data.contains '+'
    let typeHasBang := if typeTruthy then (typeOpt.getD "").data.contains '!' else false
    let typeHasPlus := if typeTruthy then (typeOpt.getD "").data.contains '+' else false
    let notnull0 := nameHasBang || typeHasBang
    let unique0 := nameHasPlus || typeHasPlus
    -- clean trailing !/+ off name and type
    let nameClean := sTrim (dropTrailingBangPlus name1)
    let retType :=
      if typeTruthy then sUpper (sTrim (dropTrailingBangPlus (typeOpt.getD "")))
      else "TEXT"
    let fk : Option FKRef2 :=
      match fkTarget with
      | some t => if t ≠ "" then some ⟨t, "id"⟩ else none
      | none => none
    -- also allow ",unique,notnull"
    let notnull := notnull0 || flags.contains "notnull"
    let unique := unique0 || flags.contains "unique"
    some ⟨nameClean, retType, notnull, unique, fk, false⟩

/-- The action map hard-coded inside `sqlForColumn`; an unknown (unvalidated)
action interpolates JS `undefined`. -/
def DELETE_ACTION_MAP (s : String) : String :=
  if s = "cascade" then "CASCADE"
  else if s = "restrict" then "RESTRICT"
  else if s = "setnull" then "SET NULL"
  else if s = "noaction" then "NO ACTION"
  else "undefined"

/-- `sqlForColumn` from the second revision. -/
def sqlForColumn (f : Field2) (onDelete : Option String) : String :=
  if f.pk then "id INTEGER PRIMARY KEY AUTOINCREMENT"
  else
    let s := f.name ++ " " ++ f.type
    let s := if f.unique then s ++ " UNIQUE" else s
    let s := if f.notnull then s ++ " NOT NULL" else s
    match f.fk with
    | none => s
    | some fk =>
      let s := s ++ " REFERENCES " ++ fk.table ++ "(" ++
        (if fk.column = "" then "id" else fk.column) ++ ")"
      if optTruthy onDelete then s ++ " ON DELETE " ++ DELETE_ACTION_MAP (onDelete.getD "")
      else s

/-- The synthetic primary-key descriptor unshifted by `generateOne`. -/
def idField2 : Field2 := ⟨"id", "INTEGER", true, false, none, true⟩

/-- The stamp columns appended by `generateOne` when `stamps` is set. -/
def stampFields2 : List Field2 :=
  [⟨"created_at", "TEXT", true, false, none, false⟩,
   ⟨"updated_at", "TEXT", true, false, none, false⟩,
   ⟨"deleted_at", "TEXT", false, false, none, false⟩]

/-- The field list `generateOne` compiles: parsed tokens, with the synthetic
`id` descriptor unshifted when no parsed field is *named* `id`, then stamps. -/
def gen2Fields (fieldTokens : List String) (stamps : Bool) : List Field2 :=
  let fields := fieldTokens.filterMap parseFieldToken
  let fields := if fields.any (fun f => f.name = "id") then fields else idField2 :: fields
  if stamps then fields ++ stampFields2 else fields

/-- The column clause list produced by `generateOne`. -/
def gen2Columns (fieldTokens : List String) (stamps : Bool) (onDelete : Option String) :
    List String :=
  (gen2Fields fieldTokens stamps).map (fun f => sqlForColumn f onDelete)

/-- The `extraSQL` array built by `generateOne`: a plain list with one FK index
statement per field carrying an FK. -/
def gen2Extra (fields : List Field2) (name : String) : List String :=
  fields.filterMap (fun f => f.fk.map (fun _ =>
    "`CREATE INDEX IF NOT EXISTS idx_" ++ name ++ "_" ++ f.name ++ "_fk ON " ++
      name ++ "(" ++ f.name ++ ");`"))

/-- JS `Array.from(new Set(l))`: first-occurrence deduplication. -/
def dedupKeep (l : List String) : List String := l.foldl setAdd []

/-- The stub-target list of `generateOne`: deduplicated FK target tables,
dropping the empty name and the table being defined itself. -/
def gen2FkTargets (fields : List Field2) (name : String) : List String :=
  (dedupKeep (fields.filterMap (fun f => f.fk.map (fun k => k.table)))).filter
    (fun t => t ≠ "" && t ≠ name)

/-- JS `camel`: `s.replace(/[-_](.)/g, (_, c) => c.toUpperCase())`. -/
def camelAux : List Char → List Char
  | [] => []
  | [c] => [c]
  | c :: d :: ds =>
    if c = '-' || c = '_' then Char.toUpper d :: camelAux ds
    else c :: camelAux (d :: ds)

def camel (s : String) : String := String.mk (camelAux s.data)

/-- The generated module text of the second revision. -/
def moduleText2 (name : String) (columnLines extraSQL : List String) : String :=
  "// " ++ name ++ ".schema.js (generated by tools/allez-orm.mjs)\n" ++
  "const " ++ camel name ++ "Schema = \x7b\n" ++
  "  table: \"" ++ name ++ "\",\n" ++
  "  version: 1,\n" ++
  "  createSQL: `\n" ++
  "CREATE TABLE IF NOT EXISTS " ++ name ++ " (\n" ++
  "  " ++ joinSep ",\n  " columnLines ++ "\n" ++
  ");`,\n" ++
  "  extraSQL: [\n" ++
  "    " ++ joinSep "\n    " extraSQL ++ "\n" ++
  "  ]\n" ++
  "\x7d;\n" ++
  "export default " ++ camel name ++ "Schema;\n"

/-- The stub module text written for a missing FK target table. -/
def stub2 (t : String) : String :=
  "// " ++ t ++ ".schema.js (generated by tools/allez-orm.mjs - stub for FK target)\n" ++
  "const " ++ camel t ++ "Schema = \x7b\n" ++
  "  table: \"" ++ t ++ "\",\n" ++
  "  version: 1,\n" ++
  "  createSQL: `\n" ++
  "CREATE TABLE IF NOT EXISTS " ++ t ++ " (\n" ++
  "  id INTEGER PRIMARY KEY AUTOINCREMENT\n" ++
  ");`,\n" ++
  "  extraSQL: [\n" ++
  "    \n" ++
  "  ]\n" ++
  "\x7d;\n" ++
  "export default " ++ camel t ++ "Schema;\n"

structure Gen2Args where
  outDir : String
  name : String
  stamps : Bool
  onDelete : Option String
  force : Bool
  fieldTokens : List String

/-- The FK-target stub loop at the end of `generateOne`: a stub is written
only when no file exists at its path. -/
def stubLoop2 (outDir : String) : List String → FS → FS
  | [], fs => fs
  | t :: rest, fs =>
    let stubPath := pjoin outDir (t ++ ".schema.js")
    stubLoop2 outDir rest (if fsExists fs stubPath then fs else fsWrite fs stubPath (stub2 t))

/-- `generateOne` of the second revision over the file-system model.
On `die` the pair carries the unchanged file system. -/
def generateOne (a : Gen2Args) (fs : FS) : Except String Unit × FS :=
  let outFile := pjoin a.outDir (a.name ++ ".schema.js")
  if fsExists fs outFile && !a.force then
    (.error ("Refusing to overwrite existing file: " ++ outFile ++
      "\n(use -f or ALLEZ_FORCE=1)"), fs)
  else
    let fields := gen2Fields a.fieldTokens a.stamps
    let columnLines := fields.map (fun f => sqlForColumn f a.onDelete)
    let extraSQL := gen2Extra fields a.name
    let fs1 := fsWrite fs outFile (moduleText2 a.name columnLines extraSQL)
    let fkTargets := gen2FkTargets fields a.name
    (.ok (), stubLoop2 a.outDir fkTargets fs1)

/-! ## Revision 1: type aliases, `sanitizeTable`, field parsing -/

def TYPE_ALIASES : List (String × String) :=
  [("int", "INTEGER"), ("integer", "INTEGER"), ("bool", "INTEGER"),
   ("text", "TEXT"), ("string", "TEXT"), ("datetime", "TEXT"), ("timestamp", "TEXT"),
   ("real", "REAL"), ("float", "REAL"),
   ("number", "NUMERIC"), ("numeric", "NUMERIC"), ("blob", "BLOB")]

/-- `TYPE_ALIASES[t]` (the key is expected lower-cased by the callers). -/
def resolveAlias (t : String) : Option String :=
  (TYPE_ALIASES.find? (fun e => e.1 == t)).map (fun e => e.2)

def VALID_ACTIONS : List String := ["cascade", "restrict", "setnull", "setdefault"]

/-- JS `\w` character class. -/
def isWordChar (c : Char) : Bool := c.isAlphanum || c = '_'

/-- `name.trim().toLowerCase().replace(/[^\w]/g, "_")`. -/
def sanitizeCore (name : String) : String :=
  String.mk (((chTrim name.data).map Char.toLower).map
    (fun c => if isWordChar c then c else '_'))

/-- `sanitizeTable`: dies when the sanitized name is empty. -/
def sanitizeTable (name : String) : Except String String :=
  let ok := sanitizeCore name
  if ok = "" then .error "Invalid table name." else .ok ok

/-- `kebabToPascal`: split on runs of `[-_ ]`, capitalise each segment, join.
Empty segments produced by leading/trailing separators contribute nothing to
the join, so they are dropped here. -/
def capSeg : List Char → List Char
  | [] => []
  | c :: cs => Char.toUpper c :: cs

def kebabToPascal (name : String) : String :=
  String.mk ((((chSplit1 '_' name.data).flatMap (chSplit1 '-')).flatMap
    (chSplit1 ' ')).filter (fun l => !l.isEmpty) |>.map capSeg).flatten

/-- The short-flag character class `[!+^#~?]` of `parseNameTypeFlags`. -/
def isShortFlagChar (c : Char) : Bool :=
  c = '!' || c = '+' || c = '^' || c = '#' || c = '~' || c = '?'

/-- The lazy regex `^(.*?)([!+^#~?]+)?$`: strip the maximal trailing run of
short-flag characters. Returns `(stem, trailingFlags)`. -/
def splitTrailingFlags (s : String) : String × String :=
  let rev := s.data.reverse
  let fl := rev.takeWhile isShortFlagChar
  (String.mk ((rev.drop fl.length).reverse), String.mk fl.reverse)

/-- JS flag-character translation inside `parseNameTypeFlags`. -/
def shortFlagName (c : Char) : String :=
  if c = '!' then "notnull"
  else if c = '+' then "unique"
  else if c = '^' then "index"
  else if c = '#' then "pk"
  else if c = '~' then "ai"
  else ""

/-- `new Set(str.split("").map(...).filter(Boolean))` as an ordered list. -/
def mkFlags (s : String) : List String :=
  s.data.foldl (fun acc c =>
    let n := shortFlagName c
    if n = "" then acc else setAdd acc n) []

structure NTF where
  name : String
  type : String
  flags : List String
  explicitType : Bool
deriving Repr, DecidableEq

/-- `parseNameTypeFlags` from the first revision. -/
def parseNameTypeFlags (base : String) : Except String NTF :=
  let hasColon := strContains base ":"
  let nameRhs : String × String :=
    if hasColon then
      let segs := sSplit1 ':' base
      (segs.headD "", (segs[1]?).getD "")
    else (base, "")
  let name0 := sTrim nameRhs.1
  if name0 = "" then .error ("Bad field spec '" ++ base ++ "'")
  else
    let rhs := nameRhs.2
    -- (finalName, typeToken, shortFlagsStr)
    let res : String × String × String :=
      if rhs ≠ "" then
        let p := splitTrailingFlags rhs
        (name0, sTrim p.1, p.2)
      else
        let p := splitTrailingFlags name0
        (sTrim p.1, "", p.2)
    let ty := res.2.1
    let type := if ty ≠ "" then (resolveAlias (sLower ty)).getD (sUpper ty) else ""
    .ok ⟨res.1, type, mkFlags res.2.2, hasColon⟩

structure FK1 where
  table : String
  col : String
  opts : List String
deriving Repr, DecidableEq

structure Field1 where
  name : String
  type : String
  flags : List String
  fk : Option FK1
  wantsIndex : Bool
deriving Repr, DecidableEq

inductive Spec1 where
  | indexOnly (name : String)
  | field (f : Field1)
deriving Repr, DecidableEq

/-- The anchored regex `^([a-zA-Z0-9_]+)(?:\(([a-zA-Z0-9_]+)\))?$` used for the
FK right-hand side. -/
def matchFkRhs (s : String) : Option (String × Option String) :=
  let cs := s.data
  let id1 := cs.takeWhile isWordChar
  let rest := cs.drop id1.length
  if id1.isEmpty then none
  else if rest.isEmpty then some (String.mk id1, none)
  else
    match rest with
    | '(' :: more =>
      let id2 := more.takeWhile isWordChar
      let rest2 := more.drop id2.length
      if id2.isEmpty then none
      else if rest2 = [')'] then some (String.mk id1, some (String.mk id2))
      else none
    | _ => none

/-- One iteration of the long-attribute loop of `parseFieldSpec`; the state is
the flag set together with the (optionally mutated) FK record.  Note the JS
optional chaining `fk?.opts.push(...)`: with no FK the FK-scoped attributes are
silently skipped, argument evaluation included. -/
def applyLongFlag (specRaw : String) (st : List String × Option FK1) (f : String) :
    Except String (List String × Option FK1) :=
  let kv := sSplit1 '=' f
  let k := kv.headD ""
  let v : Option String := kv[1]?
  let key := sTrim (sLower k)
  if key = "" then .ok st
  else if ["notnull", "nn", "!"].contains key then .ok (setAdd st.1 "notnull", st.2)
  else if ["unique", "u", "+"].contains key then .ok (setAdd st.1 "unique", st.2)
  else if ["index", "idx", "^"].contains key then .ok (setAdd st.1 "index", st.2)
  else if ["pk", "primary", "#"].contains key then .ok (setAdd st.1 "pk", st.2)
  else if ["ai", "autoincrement", "~"].contains key then .ok (setAdd st.1 "ai", st.2)
  else if ["default", "def", "="].contains key then
    .ok (setAdd st.1 ("default=" ++ v.getD "undefined"), st.2)
  else if ["ondelete", "on_delete"].contains key then
    match st.2 with
    | none => .ok st
    | some fk =>
      match v with
      | none => .error "TypeError: Cannot read properties of undefined (reading 'toUpperCase')"
      | some v => .ok (st.1, some { fk with opts := fk.opts ++ ["ON DELETE " ++ sUpper v] })
  else if ["onupdate", "on_update"].contains key then
    match st.2 with
    | none => .ok st
    | some fk =>
      match v with
      | none => .error "TypeError: Cannot read properties of undefined (reading 'toUpperCase')"
      | some v => .ok (st.1, some { fk with opts := fk.opts ++ ["ON UPDATE " ++ sUpper v] })
  else if ["defer", "deferrable"].contains key then
    match st.2 with
    | none => .ok st
    | some fk => .ok (st.1, some { fk with opts := fk.opts ++ ["DEFERRABLE INITIALLY DEFERRED"] })
  else .error ("Unknown flag '" ++ key ++ "' in '" ++ specRaw ++ "'")

/-- The FK-shorthand branch of `parseFieldSpec`: `left` is the part before
the arrow, `rhs` the `table[(col)]` part. -/
def parseFkShorthand (specRaw left rhs : String) : Except String Spec1 :=
  match parseNameTypeFlags left with
  | .error e => .error e
  | .ok ntf =>
    match matchFkRhs rhs with
    | none => .error ("Bad FK ref '" ++ specRaw ++ "'")
    | some (tbl, colQ) =>
      match sanitizeTable tbl with
      | .error e => .error e
      | .ok table =>
        let refCol := colQ.getD "id"
        let resolvedType :=
          if ntf.explicitType then (if ntf.type = "" then "TEXT" else ntf.type)
          else "INTEGER"
        let finalType := (resolveAlias (sLower resolvedType)).getD
          (if resolvedType = "" then "TEXT" else resolvedType)
        .ok (.field ⟨ntf.name, finalType, ntf.flags,
          some ⟨table, refCol, []⟩, ntf.flags.contains "index"⟩)

/-- `parseFieldSpec` from the first revision. -/
def parseFieldSpec (specRaw : String) : Except String Spec1 :=
  -- "^col" index-only
  if sStarts specRaw "^" && !strContains specRaw ":" && !strContains specRaw "," &&
      !strContains specRaw ">" && !strContains specRaw "->" then
    .ok (.indexOnly (String.mk (specRaw.data.drop 1)))
  -- FK shorthand "left>table(col)" / "left->table(col)"
  else if (strContains specRaw ">" || strContains specRaw "->") &&
      !strContains specRaw ":fk" then
    let segs := if strContains specRaw "->" then sSplitArrow specRaw
                else sSplit1 '>' specRaw
    parseFkShorthand specRaw (segs.headD "") ((segs[1]?).getD "")
  -- general field, possibly with ":fk(table.col)" and long attributes
  else
    let parts := sSplit1 ',' specRaw
    let base := parts.headD ""
    let rest := parts.tail
    match parseNameTypeFlags base with
    | .error e => .error e
    | .ok ntf =>
      let tl := sLower ntf.type
      let fkStep : Except String (Option FK1 × String) :=
        if sStarts tl "fk(" && sEnds tl ")" then
          let inside := String.mk ((ntf.type.data.drop 3).dropLast)
          let pcs := sSplit1 '.' inside
          let t := pcs.headD ""
          let c := (pcs[1]?).getD "id"
          match sanitizeTable t with
          | .error e => .error e
          | .ok table => .ok (some ⟨table, c, []⟩, "INTEGER")
        else .ok (none, ntf.type)
      match fkStep with
      | .error e => .error e
      | .ok (fk0, ty0) =>
        let ty1 := if ty0 = "" then "TEXT" else ty0
        match rest.foldlM (applyLongFlag specRaw) (ntf.flags, fk0) with
        | .error e => .error e
        | .ok (flags, fk) =>
          .ok (.field ⟨ntf.name, ty1, flags, fk, flags.contains "index"⟩)

/-! ## Revision 1: `buildColumnSQL` and `main` -/

structure GlobalFK where
  onDelete : Option String
  onUpdate : Option String
deriving Repr, DecidableEq

/-- The ordered parts array assembled by `buildColumnSQL` before `join(" ")`. -/
def colParts (f : Field1) (g : GlobalFK) : List String :=
  [f.name ++ " " ++ f.type]
  ++ (if f.flags.contains "pk" then ["PRIMARY KEY"] else [])
  ++ (if f.flags.contains "ai" then ["AUTOINCREMENT"] else [])
  ++ (if f.flags.contains "unique" then ["UNIQUE"] else [])
  ++ (if f.flags.contains "notnull" then ["NOT NULL"] else [])
  ++ (match f.fk with
      | none => []
      | some fk =>
        let gDel := if optTruthy g.onDelete then ["ON DELETE " ++ sUpper (g.onDelete.getD "")] else []
        let gUpd := if optTruthy g.onUpdate then ["ON UPDATE " ++ sUpper (g.onUpdate.getD "")] else []
        let sc := if fk.opts.isEmpty then gDel ++ gUpd else fk.opts
        ["REFERENCES " ++ fk.table ++ "(" ++ fk.col ++ ")"]
        ++ (if sc.isEmpty then [] else [joinSep " " sc]))
  ++ (match f.flags.find? (fun x => sStarts x "default=") with
      | some d => ["DEFAULT " ++ ((sSplit1 '=' d)[1]?).getD ""]
      | none => [])

/-- `buildColumnSQL`: dies when AUTOINCREMENT is requested without
INTEGER PRIMARY KEY, otherwise joins the parts with single spaces. -/
def buildColumnSQL (f : Field1) (g : GlobalFK) : Except String String :=
  if f.flags.contains "ai" && !(f.flags.contains "pk" && f.type == "INTEGER") then
    .error ("AUTOINCREMENT requires INTEGER PRIMARY KEY on '" ++ f.name ++ "'")
  else .ok (joinSep " " (colParts f g))

/-- The synthetic default-PK column pushed by `main` when no field has `pk`. -/
def idField1 : Field1 := ⟨"id", "INTEGER", ["pk", "ai"], none, false⟩

def stampCols1 : List Field1 :=
  [⟨"created_at", "TEXT", ["notnull"], none, false⟩,
   ⟨"updated_at", "TEXT", ["notnull"], none, false⟩]

def deletedCol1 : Field1 := ⟨"deleted_at", "TEXT", [], none, false⟩

/-- The ordered column list `main` assembles from the parsed specs. -/
def colsOf (specs : List Spec1) (stamps softDelete : Bool) : List Field1 :=
  let hasUserPK := specs.any (fun s =>
    match s with | .field f => f.flags.contains "pk" | .indexOnly _ => false)
  let cols := (if hasUserPK then [] else [idField1])
    ++ specs.filterMap (fun s =>
        match s with | .field f => some f | .indexOnly _ => none)
  let cols := if stamps then cols ++ stampCols1 else cols
  if softDelete || stamps then cols ++ [deletedCol1] else cols

/-- FK references collected by `main` for stub generation. -/
def fkRefsOf (specs : List Spec1) : List (String × String) :=
  specs.filterMap (fun s =>
    match s with
    | .field f => f.fk.map (fun k => (k.table, k.col))
    | .indexOnly _ => none)

/-- One iteration of the `extraIdx` accumulation of `main`. -/
def extraIdxStep (table : String) (noFkIndex : Bool) (acc : List String) (s : Spec1) :
    List String :=
  match s with
  | .indexOnly n =>
    setAdd acc ("CREATE INDEX IF NOT EXISTS idx_" ++ table ++ "_" ++ n ++ " ON " ++
      table ++ "(" ++ n ++ ");")
  | .field f =>
    let acc := if f.wantsIndex then
        setAdd acc ("CREATE INDEX IF NOT EXISTS idx_" ++ table ++ "_" ++ f.name ++
          " ON " ++ table ++ "(" ++ f.name ++ ");")
      else acc
    if f.fk.isSome && !noFkIndex then
      setAdd acc ("CREATE INDEX IF NOT EXISTS idx_" ++ table ++ "_" ++ f.name ++
        "_fk ON " ++ table ++ "(" ++ f.name ++ ");")
    else acc

/-- The `extraIdx` set of `main`: explicit `^` indexes plus FK-column indexes
(unless `--no-fk-index`), accumulated into a JS `Set`. -/
def extraIdxOf (specs : List Spec1) (table : String) (noFkIndex : Bool) : List String :=
  specs.foldl (extraIdxStep table noFkIndex) []

/-- The CREATE TABLE statement composed by `main`. -/
def ddlOf (table : String) (clauses : List String) : String :=
  "CREATE TABLE IF NOT EXISTS " ++ table ++ " (\n  " ++
    joinSep ",\n  " clauses ++ "\n);"

/-- The generated `.js` artifact text of the first revision. -/
def fileJS1 (table pascal : String) (version : Nat) (ddl : String)
    (extraIdx : List String) : String :=
  "// ./schemas/" ++ table ++ ".schema.js\n" ++
  "const " ++ pascal ++ " = \x7b\n" ++
  "  table: \"" ++ table ++ "\",\n" ++
  "  version: " ++ toString version ++ ",\n\n" ++
  "  createSQL: `\n" ++
  "    " ++ joinSep "\n    " (sSplit1 '\n' ddl) ++ "\n" ++
  "  `,\n\n" ++
  "  extraSQL: [\n" ++
  joinSep "\n" (extraIdx.map (fun s => "    `" ++ s ++ "`")) ++ "\n" ++
  "  ]\n" ++
  "\x7d;\n" ++
  "\n" ++
  "export default " ++ pascal ++ ";\n"

/-- The generated `.ts` artifact text of the first revision. -/
def fileTS1 (table pascal : String) (version : Nat) (ddl : String)
    (extraIdx : List String) : String :=
  "// ./schemas/" ++ table ++ ".schema.ts\n" ++
  "import type \x7b Schema \x7d from \"../allez-orm\";\n" ++
  "const " ++ pascal ++ ": Schema = \x7b\n" ++
  "  table: \"" ++ table ++ "\",\n" ++
  "  version: " ++ toString version ++ ",\n\n" ++
  "  createSQL: `\n" ++
  "    " ++ joinSep "\n    " (sSplit1 '\n' ddl) ++ "\n" ++
  "  `,\n\n" ++
  "  extraSQL: [\n" ++
  joinSep "\n" (extraIdx.map (fun s => "    `" ++ s ++ "`")) ++ "\n" ++
  "  ]\n" ++
  "\x7d;\n" ++
  "\n" ++
  "export default " ++ pascal ++ ";\n"

/-- The minimal stub artifact written by the first revision for a missing FK
target. -/
def stub1 (t : String) : String :=
  let pas := kebabToPascal t ++ "Schema"
  "// ./schemas/" ++ t ++ ".schema.js  (auto-created stub for FK target)\n" ++
  "const " ++ pas ++ " = \x7b\n" ++
  "  table: \"" ++ t ++ "\",\n" ++
  "  version: 1,\n" ++
  "  createSQL: `\n" ++
  "    CREATE TABLE IF NOT EXISTS " ++ t ++ " (\n" ++
  "      id INTEGER PRIMARY KEY AUTOINCREMENT\n" ++
  "    );\n" ++
  "  `,\n" ++
  "  extraSQL: []\n" ++
  "\x7d;\n" ++
  "export default " ++ pas ++ ";\n"

structure Cfg1 where
  nonFlags : List String := []
  dir : String := "schemas"
  asTS : Bool := false
  version : Nat := 1
  stamps : Bool := false
  softDelete : Bool := false
  force : Bool := false
  ensureRefs : Bool := true
  onDelete : Option String := none
  onUpdate : Option String := none
  noFkIndex : Bool := false
deriving Repr, DecidableEq

/-- `FORCE_FROM_ENV`: `String(process.env.ALLEZ_FORCE || "").trim() === "1"`. -/
def FORCE_FROM_ENV (env : String) : Bool := sTrim env == "1"

/-- `FORCE_FROM_ARGV`: `argv.includes("--force") || argv.includes("-f")`. -/
def FORCE_FROM_ARGV (argv : List String) : Bool :=
  argv.contains "--force" || argv.contains "-f"

/-- `FORCE_EFFECTIVE`, computed at module load, before any positional parsing. -/
def FORCE_EFFECTIVE (argv : List String) (env : String) : Bool :=
  FORCE_FROM_ENV env || FORCE_FROM_ARGV argv

/-- `Number(x || "1") || 1` for the `--version=` flag (integer fragment). -/
def jsVersionNum (s : String) : Nat :=
  match s.toNat? with
  | some 0 => 1
  | some n => n
  | none => 1

/-- One iteration of the option-scanning loop of `parseArgs` (first revision). -/
def parseArgStep (a : String) (out : Cfg1) : Cfg1 :=
  if a = "--" then out
  else if a = "--ts" then { out with asTS := true }
  else if sStarts a "--dir=" then { out with dir := ((sSplit1 '=' a)[1]?).getD "" }
  else if sStarts a "--version=" then
    { out with version := jsVersionNum (((sSplit1 '=' a)[1]?).getD "") }
  else if a = "--stamps" then { out with stamps := true }
  else if a = "--soft-delete" then { out with softDelete := true }
  else if a = "--force" || a = "-f" then { out with force := true }
  else if a = "--ensure-refs" then { out with ensureRefs := true }
  else if a = "--no-fk-index" then { out with noFkIndex := true }
  else if sStarts a "--onDelete=" then
    { out with onDelete := some (sLower (((sSplit1 '=' a)[1]?).getD "")) }
  else if sStarts a "--onUpdate=" then
    { out with onUpdate := some (sLower (((sSplit1 '=' a)[1]?).getD "")) }
  else { out with nonFlags := out.nonFlags ++ [a] }

/-- The option-scanning loop of `parseArgs` (first revision). -/
def parseArgsAux : List String → Cfg1 → Cfg1
  | [], out => out
  | a :: rest, out => parseArgsAux rest (parseArgStep a out)

/-- `parseArgs` of the first revision: option scan, then the module-level
`FORCE_EFFECTIVE` override, then action validation. -/
def parseArgs (argv2 : List String) (forceEffective : Bool) : Except String Cfg1 :=
  let out := parseArgsAux argv2 {}
  let out := if forceEffective then { out with force := true } else out
  if optTruthy out.onDelete && !(VALID_ACTIONS.contains (out.onDelete.getD "")) then
    .error "Invalid --onDelete action"
  else if optTruthy out.onUpdate && !(VALID_ACTIONS.contains (out.onUpdate.getD "")) then
    .error "Invalid --onUpdate action"
  else .ok out

/-- `List.mapM` over `Except`, written out so that it matches the JS `map`
that dies at the first failing element and unfolds structurally. -/
def exceptMapM (f : α → Except ε β) : List α → Except ε (List β)
  | [] => .ok []
  | x :: xs =>
    match f x with
    | .error e => .error e
    | .ok y =>
      match exceptMapM f xs with
      | .error e => .error e
      | .ok ys => .ok (y :: ys)

/-- The `ensureRefs` stub loop of the first revision: skipped when either a
`.js` or a `.ts` artifact already exists for the referenced table. -/
def ensureStubs1 (dir : String) : List (String × String) → FS → FS
  | [], fs => fs
  | r :: rest, fs =>
    let refJS := pjoin dir (r.1 ++ ".schema.js")
    let refTS := pjoin dir (r.1 ++ ".schema.ts")
    ensureStubs1 dir rest
      (if fsExists fs refJS || fsExists fs refTS then fs
       else fsWrite fs refJS (stub1 r.1))

/-- `main` of the first revision over the file-system model, after `parseArgs`:
`a` is the positional token list.  Help paths write nothing. -/
def main1 (cfg : Cfg1) (a : List String) (fs : FS) : Except String Unit × FS :=
  if a.isEmpty || ["-h", "--help", "help"].contains (a.headD "") then (.ok (), fs)
  else if !(a[0]? == some "create" && a[1]? == some "table") then (.ok (), fs)
  else
    match sanitizeTable ((a[2]?).getD "") with
    | .error e => (.error e, fs)
    | .ok table =>
      match exceptMapM parseFieldSpec (a.drop 3) with
      | .error e => (.error e, fs)
      | .ok specs =>
        let cols := colsOf specs cfg.stamps cfg.softDelete
        match exceptMapM (fun c => buildColumnSQL c ⟨cfg.onDelete, cfg.onUpdate⟩) cols with
        | .error e => (.error e, fs)
        | .ok clauses =>
          let ddl := ddlOf table clauses
          let extraIdx := extraIdxOf specs table cfg.noFkIndex
          let pascal := kebabToPascal table ++ "Schema"
          let content :=
            if cfg.asTS then fileTS1 table pascal cfg.version ddl extraIdx
            else fileJS1 table pascal cfg.version ddl extraIdx
          let outFile := pjoin cfg.dir (table ++ ".schema." ++ (if cfg.asTS then "ts" else "js"))
          if fsExists fs outFile && !cfg.force then
            (.error ("Refusing to overwrite: " ++ outFile ++ " (use --force)"), fs)
          else
            let fs1 := fsWrite fs outFile content
            let refs := fkRefsOf specs
            if cfg.ensureRefs && !refs.isEmpty then (.ok (), ensureStubs1 cfg.dir refs fs1)
            else (.ok (), fs1)

/-! ## Revision 2: `parseOptions` and `runFromJson` -/

def VALID_ONDELETE2 : List String := ["cascade", "restrict", "setnull", "noaction"]

structure POAcc where
  dir : String := "schemas_cli"
  stamps : Bool := false
  onDelete : Option String := none
  force : Bool := false
  printJsonSchema : Bool := false
  positional : List String := []
deriving Repr, DecidableEq

/-- One iteration of the option loop of the second revision's `parseOptions`;
`--help` and invalid options terminate the process (modelled as errors). -/
def parseOptionStep (a : String) (acc : POAcc) : Except String POAcc :=
  if a = "--help" || a = "-h" then .error "help"
  else if sStarts a "--dir=" then .ok { acc with dir := String.mk (a.data.drop 6) }
  else if a = "--stamps" then .ok { acc with stamps := true }
  else if sStarts a "--onDelete=" then
    let v := sLower (String.mk (a.data.drop 11))
    if !(VALID_ONDELETE2.contains v) then .error ("Invalid --onDelete value: " ++ v)
    else .ok { acc with onDelete := some v }
  else if a = "-f" || a = "--force" then .ok { acc with force := true }
  else if a = "--print-json-schema" then .ok { acc with printJsonSchema := true }
  else if sStarts a "-" then .error ("Unknown option: " ++ a)
  else .ok { acc with positional := acc.positional ++ [a] }

/-- The option loop of the second revision's `parseOptions`. -/
def parseOptionsAux : List String → POAcc → Except String POAcc
  | [], acc => .ok acc
  | a :: rest, acc =>
    match parseOptionStep a acc with
    | .error e => .error e
    | .ok acc2 => parseOptionsAux rest acc2

structure Opts2 where
  dir : String
  stamps : Bool
  onDelete : Option String
  force : Bool
  cmd : Option String
  sub : Option String
  table : Option String
  fields : List String
  jsonFile : Option String
  printJsonSchema : Bool
deriving Repr, DecidableEq

/-- JS `x || null` on an optional string. -/
def orNull (o : Option String) : Option String :=
  match o with
  | some s => if s = "" then none else some s
  | none => none

/-- `parseOptions` of the second revision: scan the options, honour
`ALLEZ_FORCE=1` (after the scan, before positional interpretation), then
read the positional command words. -/
def parseOptions (args : List String) (env : String) : Except String Opts2 :=
  match parseOptionsAux args {} with
  | .error e => .error e
  | .ok acc =>
    let force := acc.force || env == "1"
    let positional := acc.positional
    let cmd := orNull positional[0]?
    let sub := orNull positional[1]?
    let isCreateTable := cmd == some "create" && sub == some "table"
    .ok { dir := acc.dir, stamps := acc.stamps, onDelete := acc.onDelete,
          force := force, cmd := cmd, sub := sub,
          table := if isCreateTable then orNull positional[2]? else none,
          fields := if isCreateTable then positional.drop 3 else [],
          jsonFile := if cmd == some "from-json" then orNull positional[1]? else none,
          printJsonSchema := acc.printJsonSchema }

/-! ### JSON documents for `from-json` -/

inductive Json where
  | null
  | bool (b : Bool)
  | num (n : Int)
  | str (s : String)
  | arr (l : List Json)
  | obj (l : List (String × Json))

/-- `obj[k]` (returns `none` for JS `undefined`; non-objects yield none for
the keys this tool reads). -/
def jLookup (o : Json) (k : String) : Option Json :=
  match o with
  | .obj l => (l.find? (fun e => e.1 == k)).map (fun e => e.2)
  | _ => none

/-- `pick(obj, ...keys)`: the first key whose value is not `undefined`. -/
def jPick (o : Json) : List String → Option Json
  | [] => none
  | k :: ks =>
    match jLookup o k with
    | some v => some v
    | none => jPick o ks

/-- JS truthiness of a JSON value. -/
def jTruthy : Json → Bool
  | .null => false
  | .bool b => b
  | .num n => n ≠ 0
  | .str s => s ≠ ""
  | .arr _ => true
  | .obj _ => true

/-- JS `String(v)` for the primitive values relevant here. -/
def jToString : Json → String
  | .str s => s
  | .num n => toString n
  | .bool b => if b then "true" else "false"
  | .null => "null"
  | .arr _ => ""
  | .obj _ => "[object Object]"

/-- `!!pick(...)`. -/
def jPickTruthy (o : Json) (keys : List String) : Bool :=
  match jPick o keys with
  | some v => jTruthy v
  | none => false

/-- The per-field validation/serialisation step of `runFromJson`: field `#fi`
of table `tName` becomes one compact field token, or dies. -/
def tokenOfField (fj : Json) (tName : String) (fi : Nat) : Except String String :=
  let fj := if jTruthy fj then fj else .obj []
  match jPick fj ["name", "Name"] with
  | some (.str s) =>
    if s = "" then
      .error ("Table \"" ++ tName ++ "\" field #" ++ toString fi ++ " is missing \"name\".")
    else
      let type := sLower (match jPick fj ["type", "Type"] with
        | some t => if jTruthy t then jToString t else "TEXT"
        | none => "TEXT")
      let unique := jPickTruthy fj ["unique", "Unique"]
      let notnull := jPickTruthy fj ["notnull", "notNull", "NotNull"]
      let fkRaw := jPick fj ["fk", "FK"]
      let fkTable : Option Json :=
        match fkRaw with
        | some fv => if jTruthy fv then jPick fv ["table", "Table"] else none
        | none => none
      let token := s ++ ":" ++ type
      let token := if notnull then token ++ "!" else token
      let token := if unique then token ++ "+" else token
      let token :=
        match fkTable with
        | some ft => if jTruthy ft then token ++ "->" ++ jToString ft else token
        | none => token
      .ok token
  | _ => .error ("Table \"" ++ tName ++ "\" field #" ++ toString fi ++ " is missing \"name\".")

/-- The field loop of `runFromJson`, threading the field index. -/
def tokensOfFieldsAux (tName : String) : Nat → List Json → Except String (List String)
  | _, [] => .ok []
  | fi, fj :: rest =>
    match tokenOfField fj tName fi with
    | .error e => .error e
    | .ok t =>
      match tokensOfFieldsAux tName (fi + 1) rest with
      | .error e => .error e
      | .ok ts => .ok (t :: ts)

/-- Processing of the table entry at index `ti`: index-qualified name check,
fields-array check, field token building, then `generateOne`. -/
def stepTable (outDir : String) (dod : Option String) (force : Bool)
    (ti : Nat) (tj : Json) (fs : FS) : Except String Unit × FS :=
  let tRaw := if jTruthy tj then tj else .obj []
  match jPick tRaw ["name", "Name"] with
  | some (.str tName) =>
    if tName = "" then
      (.error ("Table at index " ++ toString ti ++ " is missing \"name\"."), fs)
    else
      let tStamps := jPickTruthy tRaw ["stamps", "Stamps"]
      match jPick tRaw ["fields", "Fields", "columns", "Columns"] with
      | some (.arr fieldsList) =>
        (match tokensOfFieldsAux tName 0 fieldsList with
        | .error e => (.error e, fs)
        | .ok tokens =>
          generateOne ⟨outDir, tName, tStamps, dod, force, tokens⟩ fs)
      | _ =>
        (.error ("Table \"" ++ tName ++
          "\" must have \"fields\" (or \"Fields\"/\"columns\"/\"Columns\") array."), fs)
  | _ => (.error ("Table at index " ++ toString ti ++ " is missing \"name\"."), fs)

/-- The sequential table loop of `runFromJson`: `die` aborts the batch,
leaving artifacts already written on disk. -/
def processTables (outDir : String) (dod : Option String) (force : Bool) :
    Nat → List Json → FS → Except String Unit × FS
  | _, [], fs => (.ok (), fs)
  | ti, t :: rest, fs =>
    match stepTable outDir dod force ti t fs with
    | (.ok _, fs1) => processTables outDir dod force (ti + 1) rest fs1
    | (.error e, fs1) => (.error e, fs1)

/-- `runFromJson` over an already-parsed JSON document.  `cliDir` is the
(always defaulted, hence truthy unless `--dir=` was passed empty) CLI
directory. -/
def runFromJson (cfg : Json) (cliDir : String) (force : Bool) (fs : FS) :
    Except String Unit × FS :=
  let outDir :=
    if cliDir ≠ "" then cliDir
    else match jPick cfg ["outDir", "OutDir"] with
      | some (.str d) => if d ≠ "" then d else "schemas_cli"
      | _ => "schemas_cli"
  let dod : Option String :=
    match jPick cfg ["defaultOnDelete", "DefaultOnDelete"] with
    | some (.str s) => if s ≠ "" then some s else none
    | _ => none
  match jPick cfg ["tables", "Tables"] with
  | some (.arr ts) => processTables outDir dod force 0 ts fs
  | _ => (.error "Config must have an array at \"tables\" (or \"Tables\").", fs)

/-- The two-table batch document of the C9 scenario: table `0` is well
formed, table `1` (named `projects`) omits every fields/columns key. -/
def cfgC9 : Json :=
  Json.obj [("tables", Json.arr
    [Json.obj [("name", Json.str "t0"),
               ("fields", Json.arr [Json.obj [("name", Json.str "a")]])],
     Json.obj [("name", Json.str "projects")]])]

/-! ## String-shape helper lemmas -/

/-- Tail of a `join(" ")`: the parts after the head, each preceded by a space. -/
def sumParts : List String → String
  | [] => ""
  | p :: ps => " " ++ p ++ sumParts ps

theorem joinSep_space_cons (x : String) (xs : List String) :
    joinSep " " (x :: xs) = x ++ sumParts xs := by
  induction xs generalizing x with
  | nil => simp [joinSep, sumParts]
  | cons y ys ih => simp [joinSep, sumParts, ih, String.append_assoc]

theorem sumParts_append (l1 l2 : List String) :
    sumParts (l1 ++ l2) = sumParts l1 ++ sumParts l2 := by
  induction l1 with
  | nil => simp [sumParts]
  | cons p ps ih => simp [sumParts, ih, String.append_assoc]

/-- Cancellation of an append around a space when neither prefix contains one. -/
theorem eq_of_append_space (a : List Char) (r1 : List Char) :
    ∀ (b r2 : List Char), ' ' ∉ a → ' ' ∉ b →
    a ++ ' ' :: r1 = b ++ ' ' :: r2 → a = b ∧ r1 = r2 := by
  induction a with
  | nil =>
    intro b r2 _ hb h
    cases b with
    | nil => simpa using h
    | cons d ds =>
      simp at h
      obtain ⟨h1, -⟩ := h
      rw [h1] at hb
      exact absurd (List.mem_cons_self _ _) hb
  | cons c cs ih =>
    intro b r2 ha hb h
    cases b with
    | nil =>
      simp at h
      obtain ⟨h1, -⟩ := h
      rw [h1] at ha
      exact absurd (List.mem_cons_self _ _) ha
    | cons d ds =>
      simp at h
      obtain ⟨rfl, h2⟩ := h
      have := ih ds r2 (fun hm => ha (List.mem_cons_of_mem _ hm))
        (fun hm => hb (List.mem_cons_of_mem _ hm)) h2
      exact ⟨by rw [this.1], this.2⟩

/-- A clause of shape `<name> <type><rest>` where the name and the type are
space-free and `rest` is empty or a space followed by `U`/`N`/`R`/`D` cannot
be the synthetic primary-key clause. -/
theorem ne_synth_data (s name type : String) (restData : List Char)
    (hs : s.data = name.data ++ ' ' :: (type.data ++ restData))
    (hn : ' ' ∉ name.data) (ht : ' ' ∉ type.data)
    (hr : restData = [] ∨ ∃ c r0, restData = ' ' :: c :: r0 ∧
      (c = 'U' ∨ c = 'N' ∨ c = 'R' ∨ c = 'D')) :
    s ≠ "id INTEGER PRIMARY KEY AUTOINCREMENT" := by
  intro h
  rw [h] at hs
  have hsynth : ("id INTEGER PRIMARY KEY AUTOINCREMENT" : String).data =
      ['i','d'] ++ ' ' :: (("INTEGER" : String).data ++ ' ' ::
        ("PRIMARY KEY AUTOINCREMENT" : String).data) := by decide
  rw [hsynth] at hs
  have h1 := eq_of_append_space name.data (type.data ++ restData) ['i','d']
    (("INTEGER" : String).data ++ ' ' :: ("PRIMARY KEY AUTOINCREMENT" : String).data)
    hn (by decide) hs.symm
  obtain ⟨-, h2⟩ := h1
  rcases hr with rfl | ⟨c, r0, rfl, hc⟩
  · rw [List.append_nil] at h2
    apply ht
    rw [h2]
    exact List.mem_append_right _ (List.mem_cons_self _ _)
  · have h3 := eq_of_append_space type.data (c :: r0)
      ("INTEGER" : String).data ("PRIMARY KEY AUTOINCREMENT" : String).data
      ht (by decide) h2
    have h4 : c :: r0 = ("PRIMARY KEY AUTOINCREMENT" : String).data := h3.2
    have h5 : c = 'P' := by
      have : ("PRIMARY KEY AUTOINCREMENT" : String).data =
        'P' :: "RIMARY KEY AUTOINCREMENT".data := by decide
      rw [this] at h4
      exact (List.cons.injEq _ _ _ _ ▸ h4).1
    rcases hc with rfl | rfl | rfl | rfl <;> simp at h5

theorem sqlForColumn_eq (f : Field2) (od : Option String) (hpk : f.pk = false) :
    sqlForColumn f od = f.name ++ " " ++ f.type ++
      ((if f.unique then " UNIQUE" else "") ++ (if f.notnull then " NOT NULL" else "") ++
       (match f.fk with
        | none => ""
        | some fk => " REFERENCES " ++ fk.table ++ "(" ++
            (if fk.column = "" then "id" else fk.column) ++ ")" ++
            (if optTruthy od then " ON DELETE " ++ DELETE_ACTION_MAP (od.getD "") else ""))) := by
  unfold sqlForColumn
  rw [hpk]
  rcases hfk : f.fk with - | fk <;>
    by_cases hu : f.unique <;> by_cases hnn : f.notnull <;>
      by_cases hod : optTruthy od <;>
        simp [hu, hnn, hod, String.append_assoc] <;>
          (apply String.ext; simp [String.data_append])

theorem sqlForColumn_ne_synth (f : Field2) (od : Option String) (hpk : f.pk = false)
    (hn : ' ' ∉ f.name.data) (ht : ' ' ∉ f.type.data) :
    sqlForColumn f od ≠ "id INTEGER PRIMARY KEY AUTOINCREMENT" := by
  refine ne_synth_data _ f.name f.type
    (((if f.unique then " UNIQUE" else "") ++ (if f.notnull then " NOT NULL" else "") ++
      (match f.fk with
       | none => ""
       | some fk => " REFERENCES " ++ fk.table ++ "(" ++
           (if fk.column = "" then "id" else fk.column) ++ ")" ++
           (if optTruthy od then " ON DELETE " ++ DELETE_ACTION_MAP (od.getD "") else ""))).data)
    ?_ hn ht ?_
  · rw [sqlForColumn_eq f od hpk]
    simp [String.data_append]
  · rcases hfk : f.fk with - | fk <;>
      by_cases hu : f.unique <;> by_cases hnn : f.notnull <;>
        simp [hu, hnn, String.data_append]

theorem buildColumnSQL_ok_parts (f : Field1) (g : GlobalFK) (s : String)
    (h : buildColumnSQL f g = .ok s) : s = joinSep " " (colParts f g) := by
  unfold buildColumnSQL at h
  by_cases hc : (f.flags.contains "ai" && !(f.flags.contains "pk" && f.type == "INTEGER")) = true
  · rw [if_pos hc] at h; simp at h
  · rw [if_neg hc] at h; simpa using h.symm

theorem buildColumnSQL_ai_false (f : Field1) (g : GlobalFK) (s : String)
    (h : buildColumnSQL f g = .ok s) (hpk : f.flags.contains "pk" = false) :
    f.flags.contains "ai" = false := by
  by_contra hai
  have hai' : f.flags.contains "ai" = true := by simpa using hai
  unfold buildColumnSQL at h
  rw [hai', hpk] at h
  simp at h

/-- The global/per-field scoped FK action parts of `buildColumnSQL`. -/
def scParts1 (fk : FK1) (g : GlobalFK) : List String :=
  let gDel := if optTruthy g.onDelete then ["ON DELETE " ++ sUpper (g.onDelete.getD "")] else []
  let gUpd := if optTruthy g.onUpdate then ["ON UPDATE " ++ sUpper (g.onUpdate.getD "")] else []
  if fk.opts.isEmpty then gDel ++ gUpd else fk.opts

/-- The joined scoped-actions part (empty or a single joined element). -/
def fkTailParts (fk : FK1) (g : GlobalFK) : List String :=
  if (scParts1 fk g).isEmpty then [] else [joinSep " " (scParts1 fk g)]

/-- Shape of the part-list tail of a non-PK clause: its `sumParts` is empty or
starts with a space and a character in `U`/`N`/`R`/`D`. -/
theorem tail_shape (uL nL fkL dL : List String)
    (hu : uL = [] ∨ uL = ["UNIQUE"]) (hn : nL = [] ∨ nL = ["NOT NULL"])
    (hfk : fkL = [] ∨ ∃ r rest2, fkL = ("REFERENCES " ++ r) :: rest2)
    (hd : dL = [] ∨ ∃ e, dL = ["DEFAULT " ++ e]) :
    (sumParts (uL ++ (nL ++ (fkL ++ dL)))).data = [] ∨
    ∃ c r0, (sumParts (uL ++ (nL ++ (fkL ++ dL)))).data = ' ' :: c :: r0 ∧
      (c = 'U' ∨ c = 'N' ∨ c = 'R' ∨ c = 'D') := by
  rcases hu with rfl | rfl <;> rcases hn with rfl | rfl <;>
    rcases hfk with rfl | ⟨r, rest2, rfl⟩ <;> rcases hd with rfl | ⟨e, rfl⟩ <;>
      simp [sumParts, sumParts_append, String.data_append]

/-- A successful non-PK clause of the first revision decomposes into
`<name> <type>` followed by a well-shaped tail. -/
theorem colParts_decomp (f : Field1) (g : GlobalFK) (hpk : f.flags.contains "pk" = false)
    (hai : f.flags.contains "ai" = false) :
    ∃ T, colParts f g = (f.name ++ " " ++ f.type) :: T ∧
      ((sumParts T).data = [] ∨ ∃ c r0, (sumParts T).data = ' ' :: c :: r0 ∧
        (c = 'U' ∨ c = 'N' ∨ c = 'R' ∨ c = 'D')) := by
  refine ⟨(if f.flags.contains "unique" then ["UNIQUE"] else []) ++
    ((if f.flags.contains "notnull" then ["NOT NULL"] else []) ++
     ((match f.fk with
       | none => []
       | some fk => ("REFERENCES " ++ (fk.table ++ "(" ++ fk.col ++ ")")) :: fkTailParts fk g) ++
      (match f.flags.find? (fun x => sStarts x "default=") with
       | some d => ["DEFAULT " ++ ((sSplit1 '=' d)[1]?).getD ""]
       | none => []))), ?_, ?_⟩
  · unfold colParts
    rw [hpk, hai]
    rcases hfk : f.fk with - | fk <;>
      simp [scParts1, fkTailParts, String.append_assoc]
  · apply tail_shape
    · by_cases hu : f.flags.contains "unique" <;> simp [hu] <;> tauto
    · by_cases hnn : f.flags.contains "notnull" <;> simp [hnn] <;> tauto
    · rcases hfk : f.fk with - | fk
      · exact Or.inl rfl
      · exact Or.inr ⟨fk.table ++ "(" ++ fk.col ++ ")", fkTailParts fk g, rfl⟩
    · rcases hdef : f.flags.find? (fun x => sStarts x "default=") with - | d
      · exact Or.inl rfl
      · exact Or.inr ⟨_, rfl⟩

theorem buildColumnSQL_ne_synth (f : Field1) (g : GlobalFK) (s : String)
    (h : buildColumnSQL f g = .ok s) (hpk : f.flags.contains "pk" = false)
    (hn : ' ' ∉ f.name.data) (ht : ' ' ∉ f.type.data) :
    s ≠ "id INTEGER PRIMARY KEY AUTOINCREMENT" := by
  have hai := buildColumnSQL_ai_false f g s h hpk
  have hs := buildColumnSQL_ok_parts f g s h
  obtain ⟨T, hT, hshape⟩ := colParts_decomp f g hpk hai
  rw [hT, joinSep_space_cons] at hs
  refine ne_synth_data s f.name f.type (sumParts T).data ?_ hn ht hshape
  rw [hs]
  simp [String.data_append]

theorem parseFieldToken_pk (tok : String) (f : Field2) (h : parseFieldToken tok = some f) :
    f.pk = false := by
  unfold parseFieldToken at h
  by_cases htok : tok = ""
  · simp [htok] at h
  · simp only [htok, if_false] at h
    simp at h
    rw [← h]

theorem exceptMapM_cons_ok {α β ε} (f : α → Except ε β) (x : α) (xs : List α)
    (ys : List β) (h : exceptMapM f (x :: xs) = .ok ys) :
    ∃ y ys', f x = .ok y ∧ exceptMapM f xs = .ok ys' ∧ ys = y :: ys' := by
  unfold exceptMapM at h
  rcases hx : f x with e | y <;> rw [hx] at h
  · simp at h
  · rcases hxs : exceptMapM f xs with e | ys' <;> rw [hxs] at h
    · simp at h
    · simp at h
      exact ⟨y, ys', rfl, rfl, h.symm⟩

theorem exceptMapM_mem {α β ε} (f : α → Except ε β) (l : List α) (ys : List β)
    (h : exceptMapM f l = .ok ys) :
    ∀ y ∈ ys, ∃ x ∈ l, f x = .ok y := by
  induction l generalizing ys with
  | nil =>
    unfold exceptMapM at h
    simp at h
    subst h
    simp
  | cons x xs ih =>
    obtain ⟨y0, ys', hx, hxs, rfl⟩ := exceptMapM_cons_ok f x xs ys h
    intro y hy
    rcases List.mem_cons.mp hy with rfl | hy'
    · exact ⟨x, List.mem_cons_self _ _, hx⟩
    · obtain ⟨x', hx', hfx'⟩ := ih ys' hxs y hy'
      exact ⟨x', List.mem_cons_of_mem _ hx', hfx'⟩


theorem mem_filterMap_field (specs : List Spec1) (x : Field1) :
    x ∈ specs.filterMap (fun s => match s with
      | .field f => some f | .indexOnly _ => none) ↔ Spec1.field x ∈ specs := by
  rw [List.mem_filterMap]
  constructor
  · rintro ⟨a, ha, hax⟩
    cases a with
    | indexOnly n => simp at hax
    | field f => simp at hax; rwa [hax] at ha
  · intro h
    exact ⟨.field x, h, rfl⟩

theorem colsOf_decomp (specs : List Spec1) (stamps softDelete : Bool)
    (hno : specs.any (fun s => match s with
      | .field f => f.flags.contains "pk" | .indexOnly _ => false) = false) :
    ∃ tail, colsOf specs stamps softDelete = idField1 :: tail ∧
      ∀ x ∈ tail, Spec1.field x ∈ specs ∨ x ∈ stampCols1 ∨ x = deletedCol1 := by
  unfold colsOf
  rw [hno]
  by_cases st : stamps <;> by_cases sd : softDelete <;> simp only [st, sd] <;> simp only [Bool.false_eq_true, if_false, if_true, Bool.or_self, Bool.or_false, Bool.false_or, Bool.true_or, List.singleton_append, List.cons_append, List.nil_append, List.append_assoc]
  case pos =>
    refine ⟨_, rfl, ?_⟩
    intro x hx
    simp only [List.mem_append, mem_filterMap_field, List.mem_singleton] at hx
    tauto
  case neg =>
    refine ⟨_, rfl, ?_⟩
    intro x hx
    simp only [List.mem_append, mem_filterMap_field, List.mem_singleton] at hx
    tauto
  case pos =>
    refine ⟨_, rfl, ?_⟩
    intro x hx
    simp only [List.mem_append, mem_filterMap_field, List.mem_singleton] at hx
    tauto
  case neg =>
    refine ⟨_, rfl, ?_⟩
    intro x hx
    simp only [mem_filterMap_field] at hx
    tauto

/-- V1 half of the default-PK property. -/
theorem c1_v1_aux (specs : List Spec1) (stamps softDelete : Bool) (g : GlobalFK)
    (clauses : List String)
    (hok : exceptMapM (fun c => buildColumnSQL c g) (colsOf specs stamps softDelete) = .ok clauses)
    (hfields : ∀ f, Spec1.field f ∈ specs →
      f.flags.contains "pk" = false ∧ ' ' ∉ f.name.data ∧ ' ' ∉ f.type.data) :
    clauses.head? = some "id INTEGER PRIMARY KEY AUTOINCREMENT" ∧
    clauses.count "id INTEGER PRIMARY KEY AUTOINCREMENT" = 1 := by
  have hno : specs.any (fun s => match s with
      | .field f => f.flags.contains "pk" | .indexOnly _ => false) = false := by
    rw [List.any_eq_false]
    intro s hs
    cases s with
    | indexOnly n => simp
    | field f => simpa using (hfields f hs).1
  obtain ⟨tail, htail, hmem⟩ := colsOf_decomp specs stamps softDelete hno
  rw [htail] at hok
  obtain ⟨y, rest, hy, hrest, rfl⟩ := exceptMapM_cons_ok _ _ _ _ hok
  have hy' : y = "id INTEGER PRIMARY KEY AUTOINCREMENT" := by
    have : buildColumnSQL idField1 g = .ok "id INTEGER PRIMARY KEY AUTOINCREMENT" := rfl
    rw [this] at hy
    exact (Except.ok.injEq _ _ ▸ hy).symm
  subst hy'
  refine ⟨rfl, ?_⟩
  have hnot : "id INTEGER PRIMARY KEY AUTOINCREMENT" ∉ rest := by
    intro hin
    obtain ⟨x, hx, hbx⟩ := exceptMapM_mem _ _ _ hrest _ hin
    rcases hmem x hx with hxf | hxs | rfl
    · obtain ⟨h1, h2, h3⟩ := hfields x hxf
      exact buildColumnSQL_ne_synth x g _ hbx h1 h2 h3 rfl
    · simp only [stampCols1, List.mem_cons, List.not_mem_nil, or_false] at hxs
      rcases hxs with rfl | rfl <;>
        exact buildColumnSQL_ne_synth _ g _ hbx (by decide) (by decide) (by decide) rfl
    · exact buildColumnSQL_ne_synth _ g _ hbx (by decide) (by decide) (by decide) rfl
  simp [List.count_cons, List.count_eq_zero.mpr hnot]

/-- V2 half of the default-PK property (guard is by *name*, not by flag). -/
theorem c1_v2_aux (tokens : List String) (stamps : Bool) (od : Option String)
    (hfields : ∀ f ∈ tokens.filterMap parseFieldToken,
      f.name ≠ "id" ∧ ' ' ∉ f.name.data ∧ ' ' ∉ f.type.data) :
    (gen2Columns tokens stamps od).head? = some "id INTEGER PRIMARY KEY AUTOINCREMENT" ∧
    (gen2Columns tokens stamps od).count "id INTEGER PRIMARY KEY AUTOINCREMENT" = 1 := by
  have hno : (tokens.filterMap parseFieldToken).any (fun f => f.name = "id") = false := by
    rw [List.any_eq_false]
    intro f hf
    simpa using (hfields f hf).1
  have hne : ∀ x, x ∈ tokens.filterMap parseFieldToken ∨ x ∈ stampFields2 →
      sqlForColumn x od ≠ "id INTEGER PRIMARY KEY AUTOINCREMENT" := by
    intro x hx
    rcases hx with hx | hx
    · obtain ⟨tok, -, htok⟩ := List.mem_filterMap.mp hx
      obtain ⟨-, h2, h3⟩ := hfields x hx
      exact sqlForColumn_ne_synth x od (parseFieldToken_pk tok x htok) h2 h3
    · simp only [stampFields2, List.mem_cons, List.not_mem_nil, or_false] at hx
      rcases hx with rfl | rfl | rfl <;>
        exact sqlForColumn_ne_synth _ od (by decide) (by decide) (by decide)
  have hid : sqlForColumn idField2 od = "id INTEGER PRIMARY KEY AUTOINCREMENT" := rfl
  unfold gen2Columns gen2Fields
  simp only [hno, Bool.false_eq_true, if_false]
  by_cases st : stamps
  · simp only [st, if_true, List.cons_append, List.map_cons, List.map_append, hid]
    have hnot : "id INTEGER PRIMARY KEY AUTOINCREMENT" ∉
        ((tokens.filterMap parseFieldToken).map (fun f => sqlForColumn f od) ++
         stampFields2.map (fun f => sqlForColumn f od)) := by
      intro hin
      rcases List.mem_append.mp hin with hin | hin <;>
        obtain ⟨x, hx, heq⟩ := List.mem_map.mp hin
      · exact hne x (Or.inl hx) heq
      · exact hne x (Or.inr hx) heq
    exact ⟨rfl, by simp [List.count_cons, List.count_eq_zero.mpr hnot]⟩
  · simp only [st, Bool.false_eq_true, if_false, List.map_cons, hid]
    have hnot : "id INTEGER PRIMARY KEY AUTOINCREMENT" ∉
        (tokens.filterMap parseFieldToken).map (fun f => sqlForColumn f od) := by
      intro hin
      obtain ⟨x, hx, heq⟩ := List.mem_map.mp hin
      exact hne x (Or.inl hx) heq
    exact ⟨rfl, by simp [List.count_cons, List.count_eq_zero.mpr hnot]⟩

theorem c1_amended :
    (∀ (specs : List Spec1) (stamps softDelete : Bool) (g : GlobalFK) (clauses : List String),
      exceptMapM (fun c => buildColumnSQL c g) (colsOf specs stamps softDelete) = .ok clauses →
      (∀ f, Spec1.field f ∈ specs →
        f.flags.contains "pk" = false ∧ ' ' ∉ f.name.data ∧ ' ' ∉ f.type.data) →
      clauses.head? = some "id INTEGER PRIMARY KEY AUTOINCREMENT" ∧
      clauses.count "id INTEGER PRIMARY KEY AUTOINCREMENT" = 1) ∧
    (∀ (tokens : List String) (stamps : Bool) (od : Option String),
      (∀ f ∈ tokens.filterMap parseFieldToken,
        f.name ≠ "id" ∧ ' ' ∉ f.name.data ∧ ' ' ∉ f.type.data) →
      (gen2Columns tokens stamps od).head? = some "id INTEGER PRIMARY KEY AUTOINCREMENT" ∧
      (gen2Columns tokens stamps od).count "id INTEGER PRIMARY KEY AUTOINCREMENT" = 1) :=
  ⟨c1_v1_aux, c1_v2_aux⟩

theorem c1_counterexample :
    ((["id:text"].filterMap parseFieldToken).all (fun f => !f.pk)) = true ∧
    gen2Columns ["id:text"] false none = ["id TEXT"] ∧
    "id INTEGER PRIMARY KEY AUTOINCREMENT" ∉ gen2Columns ["id:text"] false none := by
  decide

theorem c1_witness :
    ((["id INTEGER PRIMARY KEY AUTOINCREMENT", "email TEXT UNIQUE NOT NULL"] : List String).head? =
        some "id INTEGER PRIMARY KEY AUTOINCREMENT" ∧
      (["id INTEGER PRIMARY KEY AUTOINCREMENT", "email TEXT UNIQUE NOT NULL"] : List String).count
        "id INTEGER PRIMARY KEY AUTOINCREMENT" = 1) ∧
    ((gen2Columns ["email:text!+"] false none).head? = some "id INTEGER PRIMARY KEY AUTOINCREMENT" ∧
      (gen2Columns ["email:text!+"] false none).count "id INTEGER PRIMARY KEY AUTOINCREMENT" = 1) := by
  constructor
  · exact c1_amended.1 [Spec1.field ⟨"email", "TEXT", ["notnull", "unique"], none, false⟩]
      false false ⟨none, none⟩ _ rfl
      (by intro f hf
          rw [List.mem_singleton] at hf
          injection hf with h
          subst h
          decide)
  · exact c1_amended.2 ["email:text!+"] false none (by decide)

theorem buildColumnSQL_order_aux (f : Field1) (g : GlobalFK) (s : String)
    (h : buildColumnSQL f g = .ok s) :
    s = (f.name ++ " " ++ f.type) ++
      (if f.flags.contains "pk" then " PRIMARY KEY" else "") ++
      (if f.flags.contains "ai" then " AUTOINCREMENT" else "") ++
      (if f.flags.contains "unique" then " UNIQUE" else "") ++
      (if f.flags.contains "notnull" then " NOT NULL" else "") ++
      (match f.fk with
       | none => ""
       | some fk =>
         " REFERENCES " ++ fk.table ++ "(" ++ fk.col ++ ")" ++
           (if (scParts1 fk g).isEmpty then "" else " " ++ joinSep " " (scParts1 fk g))) ++
      (match f.flags.find? (fun x => sStarts x "default=") with
       | some d => " DEFAULT " ++ ((sSplit1 '=' d)[1]?).getD ""
       | none => "") := by
  rw [buildColumnSQL_ok_parts f g s h]
  unfold colParts
  rcases hfk : f.fk with - | fk
  · rcases hdef : f.flags.find? (fun x => sStarts x "default=") with - | d <;>
      by_cases hpk : f.flags.contains "pk" <;>
        by_cases hai : f.flags.contains "ai" <;>
          by_cases hu : f.flags.contains "unique" <;>
            by_cases hnn : f.flags.contains "notnull" <;>
              simp only [hdef, hpk, hai, hu, hnn, if_true, if_false, Bool.false_eq_true] <;>
              (apply String.ext
               simp [joinSep, String.data_append])
  · by_cases hsc : (scParts1 fk g).isEmpty <;>
      rcases hdef : f.flags.find? (fun x => sStarts x "default=") with - | d <;>
        by_cases hpk : f.flags.contains "pk" <;>
          by_cases hai : f.flags.contains "ai" <;>
            by_cases hu : f.flags.contains "unique" <;>
              by_cases hnn : f.flags.contains "notnull" <;>
                simp only [hdef, hpk, hai, hu, hnn, if_true, if_false, Bool.false_eq_true,
                  scParts1] at hsc ⊢ <;>
                simp only [hsc, if_true, if_false, Bool.false_eq_true] <;>
                (apply String.ext
                 simp [hsc, joinSep, String.data_append])

theorem eq_of_len_le_one {α : Type} {l : List α} (h : l.length ≤ 1) {a b : α}
    (ha : a ∈ l) (hb : b ∈ l) : a = b := by
  match l, h, ha, hb with
  | [x], _, ha, hb =>
    rw [List.mem_singleton] at ha hb
    rw [ha, hb]

theorem find?_eq_of_mem_iff (p : String → Bool) (l1 l2 : List String)
    (hmem : ∀ a, a ∈ l1 ↔ a ∈ l2)
    (h1 : (l1.filter p).length ≤ 1) :
    l1.find? p = l2.find? p := by
  rcases hf1 : l1.find? p with - | x
  · rw [List.find?_eq_none] at hf1
    symm
    rw [List.find?_eq_none]
    intro a ha
    exact hf1 a ((hmem a).mpr ha)
  · have hx1 : x ∈ l1 := List.mem_of_find?_eq_some hf1
    have hpx : p x = true := List.find?_some hf1
    rcases hf2 : l2.find? p with - | y
    · rw [List.find?_eq_none] at hf2
      exact absurd hpx (hf2 x ((hmem x).mp hx1))
    · have hy2 : y ∈ l2 := List.mem_of_find?_eq_some hf2
      have hpy : p y = true := List.find?_some hf2
      have hxy : x = y := eq_of_len_le_one h1
        (List.mem_filter.mpr ⟨hx1, hpx⟩)
        (List.mem_filter.mpr ⟨(hmem y).mpr hy2, hpy⟩)
      rw [hxy]

theorem contains_eq_of_mem_iff (l1 l2 : List String)
    (hmem : ∀ a, a ∈ l1 ↔ a ∈ l2) (a : String) :
    l1.contains a = l2.contains a := by
  by_cases h : a ∈ l1
  · simp [List.elem_iff, h, (hmem a).mp h]
  · have h2 : a ∉ l2 := fun hc => h ((hmem a).mpr hc)
    simp [List.elem_iff, h, h2]

theorem c2_det_aux (f1 f2 : Field1) (g : GlobalFK)
    (hname : f1.name = f2.name) (htype : f1.type = f2.type) (hfk : f1.fk = f2.fk)
    (hflags : ∀ a, a ∈ f1.flags ↔ a ∈ f2.flags)
    (hdef1 : (f1.flags.filter (fun x => sStarts x "default=")).length ≤ 1) :
    buildColumnSQL f1 g = buildColumnSQL f2 g := by
  have hcont := contains_eq_of_mem_iff f1.flags f2.flags hflags
  have hfind := find?_eq_of_mem_iff (fun x => sStarts x "default=") f1.flags f2.flags hflags hdef1
  unfold buildColumnSQL colParts
  rw [hname, htype, hfk, hcont "pk", hcont "ai", hcont "unique", hcont "notnull", hfind]

theorem c2_amended :
    (∀ (f : Field1) (g : GlobalFK) (s : String), buildColumnSQL f g = .ok s →
      s = (f.name ++ " " ++ f.type) ++
        (if f.flags.contains "pk" then " PRIMARY KEY" else "") ++
        (if f.flags.contains "ai" then " AUTOINCREMENT" else "") ++
        (if f.flags.contains "unique" then " UNIQUE" else "") ++
        (if f.flags.contains "notnull" then " NOT NULL" else "") ++
        (match f.fk with
         | none => ""
         | some fk =>
           " REFERENCES " ++ fk.table ++ "(" ++ fk.col ++ ")" ++
             (if (scParts1 fk g).isEmpty then "" else " " ++ joinSep " " (scParts1 fk g))) ++
        (match f.flags.find? (fun x => sStarts x "default=") with
         | some d => " DEFAULT " ++ ((sSplit1 '=' d)[1]?).getD ""
         | none => "")) ∧
    (∀ (f1 f2 : Field1) (g : GlobalFK),
      f1.name = f2.name → f1.type = f2.type → f1.fk = f2.fk →
      (∀ a, a ∈ f1.flags ↔ a ∈ f2.flags) →
      (f1.flags.filter (fun x => sStarts x "default=")).length ≤ 1 →
      buildColumnSQL f1 g = buildColumnSQL f2 g) ∧
    (∀ (f : Field2) (od : Option String), f.pk = false →
      sqlForColumn f od = f.name ++ " " ++ f.type ++
        ((if f.unique then " UNIQUE" else "") ++ (if f.notnull then " NOT NULL" else "") ++
         (match f.fk with
          | none => ""
          | some fk => " REFERENCES " ++ fk.table ++ "(" ++
              (if fk.column = "" then "id" else fk.column) ++ ")" ++
              (if optTruthy od then " ON DELETE " ++ DELETE_ACTION_MAP (od.getD "") else "")))) ∧
    (parseFieldSpec "email:text!+" =
      .ok (.field ⟨"email", "TEXT", ["notnull", "unique"], none, false⟩) ∧
     buildColumnSQL ⟨"email", "TEXT", ["notnull", "unique"], none, false⟩ ⟨none, none⟩ =
      .ok "email TEXT UNIQUE NOT NULL") :=
  ⟨buildColumnSQL_order_aux, c2_det_aux, sqlForColumn_eq, rfl, rfl⟩

theorem c2_counterexample :
    parseFieldSpec "u:fk(t.id),ondelete=cascade,onupdate=restrict" =
      .ok (.field ⟨"u", "INTEGER", [],
        some ⟨"t", "ID", ["ON DELETE CASCADE", "ON UPDATE RESTRICT"]⟩, false⟩) ∧
    parseFieldSpec "u:fk(t.id),onupdate=restrict,ondelete=cascade" =
      .ok (.field ⟨"u", "INTEGER", [],
        some ⟨"t", "ID", ["ON UPDATE RESTRICT", "ON DELETE CASCADE"]⟩, false⟩) ∧
    (["ON DELETE CASCADE", "ON UPDATE RESTRICT"] : List String).Perm
      ["ON UPDATE RESTRICT", "ON DELETE CASCADE"] ∧
    buildColumnSQL ⟨"u", "INTEGER", [],
        some ⟨"t", "ID", ["ON DELETE CASCADE", "ON UPDATE RESTRICT"]⟩, false⟩ ⟨none, none⟩ =
      .ok "u INTEGER REFERENCES t(ID) ON DELETE CASCADE ON UPDATE RESTRICT" ∧
    buildColumnSQL ⟨"u", "INTEGER", [],
        some ⟨"t", "ID", ["ON UPDATE RESTRICT", "ON DELETE CASCADE"]⟩, false⟩ ⟨none, none⟩ =
      .ok "u INTEGER REFERENCES t(ID) ON UPDATE RESTRICT ON DELETE CASCADE" ∧
    ("u INTEGER REFERENCES t(ID) ON DELETE CASCADE ON UPDATE RESTRICT" : String) ≠
      "u INTEGER REFERENCES t(ID) ON UPDATE RESTRICT ON DELETE CASCADE" :=
  ⟨rfl, rfl, List.Perm.swap _ _ _, rfl, rfl, by decide⟩

theorem c2_witness :
    ("email TEXT UNIQUE NOT NULL" : String) =
      ("email" ++ " " ++ "TEXT") ++ "" ++ "" ++ " UNIQUE" ++ " NOT NULL" ++ "" ++ "" ∧
    buildColumnSQL ⟨"e", "TEXT", ["notnull", "unique"], none, false⟩ ⟨none, none⟩ =
      buildColumnSQL ⟨"e", "TEXT", ["unique", "notnull"], none, false⟩ ⟨none, none⟩ := by
  constructor
  · have h := c2_amended.1 ⟨"email", "TEXT", ["notnull", "unique"], none, false⟩
      ⟨none, none⟩ "email TEXT UNIQUE NOT NULL" rfl
    simp at h
    exact h
  · exact c2_amended.2.1 ⟨"e", "TEXT", ["notnull", "unique"], none, false⟩
      ⟨"e", "TEXT", ["unique", "notnull"], none, false⟩ ⟨none, none⟩ rfl rfl rfl
      (by intro a; simp [List.mem_cons]; tauto) (by decide)

theorem c8_theorem :
    ∀ (f : Field1) (g : GlobalFK),
      (buildColumnSQL f g = .error
          ("AUTOINCREMENT requires INTEGER PRIMARY KEY on '" ++ f.name ++ "'") ↔
        f.flags.contains "ai" = true ∧ ¬(f.flags.contains "pk" = true ∧ f.type = "INTEGER")) ∧
      ((f.flags.contains "ai" = true → f.flags.contains "pk" = true ∧ f.type = "INTEGER") →
        buildColumnSQL f g = .ok (joinSep " " (colParts f g))) := by
  intro f g
  unfold buildColumnSQL
  by_cases hai : f.flags.contains "ai" <;>
    by_cases hpk : f.flags.contains "pk" <;>
      by_cases htype : f.type = "INTEGER" <;>
        simp [hai, hpk, htype]

theorem c8_witness :
    (∃ e, buildColumnSQL ⟨"x", "TEXT", ["ai"], none, false⟩ ⟨none, none⟩ = .error e) ∧
    buildColumnSQL idField1 ⟨none, none⟩ = .ok "id INTEGER PRIMARY KEY AUTOINCREMENT" := by
  constructor
  · have h := c8_theorem ⟨"x", "TEXT", ["ai"], none, false⟩ ⟨none, none⟩
    exact ⟨_, h.1.mpr (by decide)⟩
  · exact (c8_theorem idField1 ⟨none, none⟩).2 (by decide)

theorem parseFieldToken_fk_col (tok : String) (f : Field2) (k : FKRef2)
    (h : parseFieldToken tok = some f) (hk : f.fk = some k) : k.column = "id" := by
  unfold parseFieldToken at h
  by_cases htok : tok = ""
  · simp [htok] at h
  · simp only [htok, if_false, Option.some.injEq] at h
    subst h
    simp only at hk
    split at hk
    · split at hk
      · simp only [Option.some.injEq] at hk
        rw [← hk]
      · simp at hk
    · simp at hk

theorem parseFkShorthand_spec (specRaw left rhs : String) (ntf : NTF)
    (tbl : String) (colQ : Option String) (f : Field1)
    (hntf : parseNameTypeFlags left = .ok ntf)
    (hrhs : matchFkRhs rhs = some (tbl, colQ))
    (h : parseFkShorthand specRaw left rhs = .ok (.field f)) :
    f.fk = some ⟨sanitizeCore tbl, colQ.getD "id", []⟩ ∧
    (ntf.explicitType = false → f.type = "INTEGER") ∧
    (ntf.explicitType = true → ntf.type ≠ "" →
      f.type = (resolveAlias (sLower ntf.type)).getD ntf.type) := by
  unfold parseFkShorthand at h
  rw [hntf, hrhs] at h
  unfold sanitizeTable at h
  by_cases hempty : sanitizeCore tbl = ""
  · simp [hempty] at h
  · simp only [hempty, if_false] at h
    simp only [Except.ok.injEq, Spec1.field.injEq] at h
    subst h
    refine ⟨rfl, ?_, ?_⟩
    · intro hex
      simp only [hex, Bool.false_eq_true, if_false]
      decide
    · intro hex hne
      simp [hex, hne]

theorem c5_amended :
    (∀ (specRaw left rhs : String) (ntf : NTF) (tbl : String) (colQ : Option String) (f : Field1),
      parseNameTypeFlags left = .ok ntf →
      matchFkRhs rhs = some (tbl, colQ) →
      parseFkShorthand specRaw left rhs = .ok (.field f) →
      f.fk = some ⟨sanitizeCore tbl, colQ.getD "id", []⟩ ∧
      (ntf.explicitType = false → f.type = "INTEGER") ∧
      (ntf.explicitType = true → ntf.type ≠ "" →
        f.type = (resolveAlias (sLower ntf.type)).getD ntf.type)) ∧
    (∀ (tok : String) (f : Field2) (k : FKRef2),
      parseFieldToken tok = some f → f.fk = some k → k.column = "id") ∧
    (parseFieldToken "user_id->users" =
      some ⟨"user_id", "TEXT", false, false, some ⟨"users", "id"⟩, false⟩) ∧
    (parseFieldToken "a:int->t" =
      some ⟨"a", "INT", false, false, some ⟨"t", "id"⟩, false⟩) :=
  ⟨parseFkShorthand_spec, parseFieldToken_fk_col, rfl, rfl⟩

theorem c5_counterexample :
    (parseFieldToken "user_id->users").map (fun f => f.type) = some "TEXT" ∧
    (parseFieldToken "user_id->users").map (fun f => f.type) ≠ some "INTEGER" ∧
    (parseFieldToken "a:int->t").map (fun f => f.type) = some "INT" ∧
    (parseFieldToken "a:int->t").map (fun f => f.type) ≠ some "INTEGER" ∧
    parseFieldSpec "user_id>users" = .ok (.field ⟨"user_id", "INTEGER", [],
      some ⟨"users", "id", []⟩, false⟩) :=
  ⟨by decide, by decide, by decide, by decide, rfl⟩

theorem c5_witness :
    ((parseFieldSpec "org_id:int>orgs(oid)" = .ok (.field ⟨"org_id", "INTEGER", [],
        some ⟨"orgs", "oid", []⟩, false⟩)) ∧
      ((⟨"org_id", "INTEGER", [], some ⟨"orgs", "oid", []⟩, false⟩ : Field1).fk =
        some ⟨sanitizeCore "orgs", (some "oid").getD "id", []⟩)) ∧
    ((parseFieldToken "b->t2").map (fun f => f.fk.map (fun k => k.column)) =
      some (some "id")) := by
  refine ⟨⟨rfl, ?_⟩, ?_⟩
  · exact (c5_amended.1 "org_id:int>orgs(oid)" "org_id:int" "orgs(oid)"
      ⟨"org_id", "INTEGER", [], true⟩ "orgs" (some "oid") _ rfl rfl rfl).1
  · have h := c5_amended.2.1 "b->t2" ⟨"b", "TEXT", false, false, some ⟨"t2", "id"⟩, false⟩
      ⟨"t2", "id"⟩ (by decide) rfl
    simp [h]
    decide

theorem c7_amended :
    (∀ (specRaw : String) (flags : List String) (attr : String),
      sTrim (sLower ((sSplit1 '=' attr).headD "")) ∈
        ["ondelete", "on_delete", "onupdate", "on_update", "defer", "deferrable"] →
      applyLongFlag specRaw (flags, none) attr = .ok (flags, none)) ∧
    (∀ (specRaw : String) (flags : List String) (fk : FK1) (attr k v : String),
      sSplit1 '=' attr = [k, v] → sTrim (sLower k) = "ondelete" →
      applyLongFlag specRaw (flags, some fk) attr =
        .ok (flags, some { fk with opts := fk.opts ++ ["ON DELETE " ++ sUpper v] })) ∧
    (∀ (specRaw : String) (flags : List String) (fk : FK1) (attr k v : String),
      sSplit1 '=' attr = [k, v] → sTrim (sLower k) = "onupdate" →
      applyLongFlag specRaw (flags, some fk) attr =
        .ok (flags, some { fk with opts := fk.opts ++ ["ON UPDATE " ++ sUpper v] })) ∧
    (∀ (specRaw : String) (flags : List String) (fk : FK1) (attr : String),
      sTrim (sLower ((sSplit1 '=' attr).headD "")) = "defer" →
      applyLongFlag specRaw (flags, some fk) attr =
        .ok (flags, some { fk with opts := fk.opts ++ ["DEFERRABLE INITIALLY DEFERRED"] })) := by
  refine ⟨?_, ?_, ?_, ?_⟩
  · intro specRaw flags attr hkey
    unfold applyLongFlag
    simp only [List.mem_cons, List.not_mem_nil, or_false] at hkey
    rcases hkey with h | h | h | h | h | h <;>
      simp only [List.headD_eq_head?_getD] at h <;> simp [h]
  · intro specRaw flags fk attr k v hsplit hkey
    unfold applyLongFlag
    simp [hsplit, hkey]
  · intro specRaw flags fk attr k v hsplit hkey
    unfold applyLongFlag
    simp [hsplit, hkey]
  · intro specRaw flags fk attr hkey
    unfold applyLongFlag
    simp only [List.headD_eq_head?_getD] at hkey
    simp [hkey]

theorem c7_counterexample :
    parseFieldSpec "a,ondelete=cascade" = .ok (.field ⟨"a", "TEXT", [], none, false⟩) ∧
    parseFieldSpec "a,defer" = .ok (.field ⟨"a", "TEXT", [], none, false⟩) := ⟨rfl, rfl⟩

theorem c7_witness :
    applyLongFlag "a,ondelete=cascade" ([], none) "ondelete=cascade" = .ok ([], none) ∧
    applyLongFlag "u:fk(t.id),ondelete=cascade" ([], some ⟨"t", "ID", []⟩) "ondelete=cascade" =
      .ok ([], some ⟨"t", "ID", ["ON DELETE CASCADE"]⟩) ∧
    applyLongFlag "u:fk(t.id),onupdate=restrict" ([], some ⟨"t", "ID", []⟩) "onupdate=restrict" =
      .ok ([], some ⟨"t", "ID", ["ON UPDATE RESTRICT"]⟩) ∧
    applyLongFlag "u:fk(t.id),defer" ([], some ⟨"t", "ID", []⟩) "defer" =
      .ok ([], some ⟨"t", "ID", ["DEFERRABLE INITIALLY DEFERRED"]⟩) := by
  refine ⟨?_, ?_, ?_, ?_⟩
  · exact c7_amended.1 "a,ondelete=cascade" [] "ondelete=cascade" (by decide)
  · exact c7_amended.2.1 "u:fk(t.id),ondelete=cascade" [] ⟨"t", "ID", []⟩
      "ondelete=cascade" "ondelete" "cascade" (by decide) (by decide)
  · exact c7_amended.2.2.1 "u:fk(t.id),onupdate=restrict" [] ⟨"t", "ID", []⟩
      "onupdate=restrict" "onupdate" "restrict" (by decide) (by decide)
  · exact c7_amended.2.2.2 "u:fk(t.id),defer" [] ⟨"t", "ID", []⟩ "defer" (by decide)

/-! ## File-system lemmas -/

theorem fsGet_write_self (fs : FS) (p c : String) :
    fsGet (fsWrite fs p c) p = some c := by
  unfold fsWrite
  by_cases hex : fsExists fs p
  · rw [if_pos hex]
    unfold fsExists at hex
    induction fs with
    | nil => simp [fsGet] at hex
    | cons e fs ih =>
      by_cases he : (e.1 == p) = true
      · simp [fsGet, List.find?, he]
      · have he' : (e.1 == p) = false := by simpa using he
        simp only [fsGet, List.map_cons, List.find?, he', Bool.false_eq_true, if_false] at hex ⊢
        exact ih hex
  · rw [if_neg hex]
    unfold fsExists at hex
    induction fs with
    | nil => simp [fsGet, List.find?]
    | cons e fs ih =>
      by_cases he : (e.1 == p) = true
      · exfalso
        apply hex
        simp [fsGet, List.find?, he]
      · have he' : (e.1 == p) = false := by simpa using he
        simp only [fsGet, List.cons_append, List.find?, he'] at hex ⊢
        exact ih hex

theorem fsGet_map_repl (fs : FS) (p c q : String) (hne : q ≠ p) :
    fsGet (fs.map (fun e => if (e.1 == p) = true then (p, c) else e)) q = fsGet fs q := by
  induction fs with
  | nil => simp [fsGet]
  | cons e fs ih =>
    by_cases he : (e.1 == p) = true
    · have heq : e.1 = p := by simpa using he
      have h1 : (p == q) = false := by
        simp only [beq_eq_false_iff_ne, ne_eq]
        exact fun h => hne h.symm
      have h2 : (e.1 == q) = false := by
        simp only [beq_eq_false_iff_ne, ne_eq, heq]
        exact fun h => hne h.symm
      simp only [List.map_cons, he, if_true, fsGet, List.find?, h1, h2]
      exact ih
    · have he' : (e.1 == p) = false := by simpa using he
      by_cases hq : (e.1 == q) = true
      · simp [fsGet, List.find?, he', hq]
      · have hq' : (e.1 == q) = false := by simpa using hq
        simp only [List.map_cons, he', Bool.false_eq_true, if_false, fsGet, List.find?, hq']
        exact ih

theorem fsGet_append_one (fs : FS) (p c q : String) (hne : q ≠ p) :
    fsGet (fs ++ [(p, c)]) q = fsGet fs q := by
  induction fs with
  | nil =>
    have h1 : (p == q) = false := by
      simp only [beq_eq_false_iff_ne, ne_eq]
      exact fun h => hne h.symm
    simp [fsGet, List.find?, h1]
  | cons e fs ih =>
    by_cases hq : (e.1 == q) = true
    · simp [fsGet, List.find?, hq]
    · have hq' : (e.1 == q) = false := by simpa using hq
      simp only [List.cons_append, fsGet, List.find?, hq']
      exact ih

theorem fsGet_write_ne (fs : FS) (p c q : String) (hne : q ≠ p) :
    fsGet (fsWrite fs p c) q = fsGet fs q := by
  unfold fsWrite
  by_cases hex : fsExists fs p
  · rw [if_pos hex]
    exact fsGet_map_repl fs p c q hne
  · rw [if_neg hex]
    exact fsGet_append_one fs p c q hne

theorem pjoin_append_inj (d a b ext : String)
    (h : pjoin d (a ++ ext) = pjoin d (b ++ ext)) : a = b := by
  unfold pjoin at h
  have hd := congrArg String.data h
  simp only [String.data_append, List.append_assoc, List.singleton_append,
    List.cons_append, List.nil_append] at hd
  apply String.ext
  exact List.append_cancel_right
    (List.cons_injective.eq_iff.mp (List.append_cancel_left hd))

theorem js_path_ne_of_ne (d a b : String) (hne : a ≠ b) :
    pjoin d (a ++ ".schema.js") ≠ pjoin d (b ++ ".schema.js") :=
  fun h => hne (pjoin_append_inj d a b ".schema.js" h)

theorem js_ne_ts_path (d a b : String) :
    pjoin d (a ++ ".schema.js") ≠ pjoin d (b ++ ".schema.ts") := by
  intro h
  have hd := congrArg (fun s => s.data.reverse) h
  simp only [pjoin, String.data_append, List.reverse_append] at hd
  simp at hd

/-- The stub loop of `generateOne` never touches a file that already exists. -/
theorem stubLoop2_preserve (d : String) (ts : List String) :
    ∀ (fs : FS) (p c : String), fsGet fs p = some c →
    fsGet (stubLoop2 d ts fs) p = some c := by
  induction ts with
  | nil =>
    intro fs p c h
    simpa [stubLoop2] using h
  | cons t rest ih =>
    intro fs p c h
    unfold stubLoop2
    by_cases hex : fsExists fs (pjoin d (t ++ ".schema.js"))
    · simp only [hex, if_true]
      exact ih fs p c h
    · have hex' : fsExists fs (pjoin d (t ++ ".schema.js")) = false := by simpa using hex
      simp only [hex', Bool.false_eq_true, if_false]
      apply ih
      rw [fsGet_write_ne]
      · exact h
      · intro heq
        rw [heq] at h
        exact hex (by simp [fsExists, h])

theorem fsExists_false_iff (fs : FS) (p : String) :
    fsExists fs p = false ↔ fsGet fs p = none := by
  unfold fsExists
  rcases h : fsGet fs p <;> simp [h]

/-- The stub loop preserves absence of any path other than the ones it writes. -/
theorem stubLoop2_preserve_none (d : String) (ts : List String) :
    ∀ (fs : FS) (p : String), fsGet fs p = none →
    (∀ t ∈ ts, p ≠ pjoin d (t ++ ".schema.js")) →
    fsGet (stubLoop2 d ts fs) p = none := by
  induction ts with
  | nil =>
    intro fs p h _
    simpa [stubLoop2] using h
  | cons t rest ih =>
    intro fs p h hne
    unfold stubLoop2
    by_cases hex : fsExists fs (pjoin d (t ++ ".schema.js"))
    · simp only [hex, if_true]
      exact ih fs p h (fun u hu => hne u (List.mem_cons_of_mem _ hu))
    · have hex' : fsExists fs (pjoin d (t ++ ".schema.js")) = false := by simpa using hex
      simp only [hex', Bool.false_eq_true, if_false]
      apply ih
      · rw [fsGet_write_ne _ _ _ _ (hne t (List.mem_cons_self _ _))]
        exact h
      · exact fun u hu => hne u (List.mem_cons_of_mem _ hu)

/-- A missing stub target gets its stub written by the loop. -/
theorem stubLoop2_creates (d : String) (ts : List String) :
    ∀ (fs : FS) (t : String), t ∈ ts →
    fsGet fs (pjoin d (t ++ ".schema.js")) = none →
    fsGet (stubLoop2 d ts fs) (pjoin d (t ++ ".schema.js")) = some (stub2 t) := by
  induction ts with
  | nil =>
    intro fs t hmem
    simp at hmem
  | cons u rest ih =>
    intro fs t hmem hnone
    unfold stubLoop2
    by_cases hut : u = t
    · subst hut
      have hex : fsExists fs (pjoin d (u ++ ".schema.js")) = false := by
        rw [fsExists_false_iff]
        exact hnone
      simp only [hex, Bool.false_eq_true, if_false]
      exact stubLoop2_preserve d rest _ _ _ (fsGet_write_self _ _ _)
    · rcases List.mem_cons.mp hmem with rfl | hmem'
      · exact absurd rfl hut
      · by_cases hex : fsExists fs (pjoin d (u ++ ".schema.js"))
        · simp only [hex, if_true]
          exact ih fs t hmem' hnone
        · have hex' : fsExists fs (pjoin d (u ++ ".schema.js")) = false := by
            simpa using hex
          simp only [hex', Bool.false_eq_true, if_false]
          apply ih _ t hmem'
          rw [fsGet_write_ne]
          · exact hnone
          · exact js_path_ne_of_ne d t u (fun h => hut h.symm)

/-- The first revision's stub loop never touches an existing file. -/
theorem ensureStubs1_preserve (d : String) (refs : List (String × String)) :
    ∀ (fs : FS) (p c : String), fsGet fs p = some c →
    fsGet (ensureStubs1 d refs fs) p = some c := by
  induction refs with
  | nil =>
    intro fs p c h
    simpa [ensureStubs1] using h
  | cons r rest ih =>
    intro fs p c h
    unfold ensureStubs1
    by_cases hex : (fsExists fs (pjoin d (r.1 ++ ".schema.js")) ||
        fsExists fs (pjoin d (r.1 ++ ".schema.ts"))) = true
    · simp only [hex, if_true]
      exact ih fs p c h
    · have hex' : (fsExists fs (pjoin d (r.1 ++ ".schema.js")) ||
          fsExists fs (pjoin d (r.1 ++ ".schema.ts"))) = false := by simpa using hex
      simp only [hex', Bool.false_eq_true, if_false]
      apply ih
      rw [fsGet_write_ne]
      · exact h
      · intro heq
        rw [heq] at h
        simp only [Bool.or_eq_false_iff] at hex'
        rw [fsExists_false_iff] at hex'
        rw [hex'.1] at h
        exact Option.noConfusion h

/-- The first revision's stub loop writes the stub for a referenced table when
neither a `.js` nor a `.ts` artifact exists for it. -/
theorem ensureStubs1_creates (d : String) (refs : List (String × String)) :
    ∀ (fs : FS) (t : String), (∃ col, (t, col) ∈ refs) →
    fsGet fs (pjoin d (t ++ ".schema.js")) = none →
    fsGet fs (pjoin d (t ++ ".schema.ts")) = none →
    fsGet (ensureStubs1 d refs fs) (pjoin d (t ++ ".schema.js")) = some (stub1 t) := by
  induction refs with
  | nil =>
    intro fs t hmem
    simp at hmem
  | cons r rest ih =>
    intro fs t hmem hjs hts
    unfold ensureStubs1
    by_cases hrt : r.1 = t
    · have hex' : (fsExists fs (pjoin d (r.1 ++ ".schema.js")) ||
          fsExists fs (pjoin d (r.1 ++ ".schema.ts"))) = false := by
        rw [hrt, Bool.or_eq_false_iff, fsExists_false_iff, fsExists_false_iff]
        exact ⟨hjs, hts⟩
      simp only [hex', Bool.false_eq_true, if_false]
      rw [hrt]
      exact ensureStubs1_preserve d rest _ _ _ (fsGet_write_self _ _ _)
    · have hmem' : ∃ col, (t, col) ∈ rest := by
        obtain ⟨col, hcol⟩ := hmem
        rcases List.mem_cons.mp hcol with heq | h
        · exact absurd (congrArg Prod.fst heq.symm) hrt
        · exact ⟨col, h⟩
      by_cases hex : (fsExists fs (pjoin d (r.1 ++ ".schema.js")) ||
          fsExists fs (pjoin d (r.1 ++ ".schema.ts"))) = true
      · simp only [hex, if_true]
        exact ih fs t hmem' hjs hts
      · have hex' : (fsExists fs (pjoin d (r.1 ++ ".schema.js")) ||
            fsExists fs (pjoin d (r.1 ++ ".schema.ts"))) = false := by simpa using hex
        simp only [hex', Bool.false_eq_true, if_false]
        apply ih _ t hmem'
        · rw [fsGet_write_ne]
          · exact hjs
          · exact js_path_ne_of_ne d t r.1 (fun h => hrt h.symm)
        · rw [fsGet_write_ne]
          · exact hts
          · exact fun h => js_ne_ts_path d r.1 t h.symm

/-- When a `.ts` artifact for a table exists, the first revision's stub loop
never creates a `.js` stub for that table (self-references stay unstubbed). -/
theorem ensureStubs1_no_self_write (d : String) (refs : List (String × String)) :
    ∀ (fs : FS) (t : String), fsExists fs (pjoin d (t ++ ".schema.ts")) = true →
    fsGet fs (pjoin d (t ++ ".schema.js")) = none →
    fsGet (ensureStubs1 d refs fs) (pjoin d (t ++ ".schema.js")) = none := by
  induction refs with
  | nil =>
    intro fs t _ h
    simpa [ensureStubs1] using h
  | cons r rest ih =>
    intro fs t hts hjs
    unfold ensureStubs1
    by_cases hrt : r.1 = t
    · have hex : (fsExists fs (pjoin d (r.1 ++ ".schema.js")) ||
          fsExists fs (pjoin d (r.1 ++ ".schema.ts"))) = true := by
        rw [hrt, hts, Bool.or_true]
      simp only [hex, if_true]
      exact ih fs t hts hjs
    · by_cases hex : (fsExists fs (pjoin d (r.1 ++ ".schema.js")) ||
          fsExists fs (pjoin d (r.1 ++ ".schema.ts"))) = true
      · simp only [hex, if_true]
        exact ih fs t hts hjs
      · have hex' : (fsExists fs (pjoin d (r.1 ++ ".schema.js")) ||
            fsExists fs (pjoin d (r.1 ++ ".schema.ts"))) = false := by simpa using hex
        simp only [hex', Bool.false_eq_true, if_false]
        apply ih
        · unfold fsExists
          rw [fsGet_write_ne]
          · exact hts
          · exact fun h => js_ne_ts_path d r.1 t h.symm
        · rw [fsGet_write_ne]
          · exact hjs
          · exact js_path_ne_of_ne d t r.1 (fun h => hrt h.symm)

/-- Frame property of `generateOne`: any pre-existing file other than the
primary artifact keeps its exact content, whatever the force flag. -/
theorem generateOne_frame (a : Gen2Args) (fs : FS) (p c : String)
    (hne : p ≠ pjoin a.outDir (a.name ++ ".schema.js"))
    (hget : fsGet fs p = some c) :
    fsGet (generateOne a fs).2 p = some c := by
  unfold generateOne
  by_cases hcol : (fsExists fs (pjoin a.outDir (a.name ++ ".schema.js")) && !a.force) = true
  · simp only [hcol, if_true]
    exact hget
  · have hcol' : (fsExists fs (pjoin a.outDir (a.name ++ ".schema.js")) && !a.force) = false := by
      simpa using hcol
    simp only [hcol', Bool.false_eq_true, if_false]
    apply stubLoop2_preserve
    rw [fsGet_write_ne _ _ _ _ hne]
    exact hget

/-- `generateOne` refuses to overwrite an existing artifact without force and
leaves the file system untouched. -/
theorem generateOne_collision (a : Gen2Args) (fs : FS)
    (hex : fsExists fs (pjoin a.outDir (a.name ++ ".schema.js")) = true)
    (hforce : a.force = false) :
    generateOne a fs =
      (.error ("Refusing to overwrite existing file: " ++
        pjoin a.outDir (a.name ++ ".schema.js") ++ "\n(use -f or ALLEZ_FORCE=1)"), fs) := by
  unfold generateOne
  simp [hex, hforce]

/-- On success, a missing FK-target stub is written. -/
theorem generateOne_stub (a : Gen2Args) (fs fs' : FS) (u : Unit) (t : String)
    (h : generateOne a fs = (.ok u, fs'))
    (hmem : t ∈ gen2FkTargets (gen2Fields a.fieldTokens a.stamps) a.name)
    (hnone : fsGet fs (pjoin a.outDir (t ++ ".schema.js")) = none) :
    fsGet fs' (pjoin a.outDir (t ++ ".schema.js")) = some (stub2 t) := by
  have htn : t ≠ a.name := by
    unfold gen2FkTargets at hmem
    have := (List.mem_filter.mp hmem).2
    simp at this
    exact this.2
  unfold generateOne at h
  by_cases hcol : (fsExists fs (pjoin a.outDir (a.name ++ ".schema.js")) && !a.force) = true
  · simp only [hcol, if_true] at h
    exact absurd (congrArg Prod.fst h) (by simp)
  · have hcol' : (fsExists fs (pjoin a.outDir (a.name ++ ".schema.js")) && !a.force) = false := by
      simpa using hcol
    simp only [hcol', Bool.false_eq_true, if_false] at h
    have hfs : fs' = stubLoop2 a.outDir (gen2FkTargets (gen2Fields a.fieldTokens a.stamps) a.name)
        (fsWrite fs (pjoin a.outDir (a.name ++ ".schema.js"))
          (moduleText2 a.name ((gen2Fields a.fieldTokens a.stamps).map
            (fun f => sqlForColumn f a.onDelete))
            (gen2Extra (gen2Fields a.fieldTokens a.stamps) a.name))) :=
      (congrArg Prod.snd h).symm
    rw [hfs]
    apply stubLoop2_creates _ _ _ _ hmem
    rw [fsGet_write_ne]
    · exact hnone
    · exact js_path_ne_of_ne _ t a.name htn

/-- On success the table's own path holds the full generated module (so a
self-referencing FK never replaces it with a stub), and the table is never in
its own stub-target list. -/
theorem generateOne_self (a : Gen2Args) (fs fs' : FS) (u : Unit)
    (h : generateOne a fs = (.ok u, fs')) :
    fsGet fs' (pjoin a.outDir (a.name ++ ".schema.js")) =
      some (moduleText2 a.name ((gen2Fields a.fieldTokens a.stamps).map
        (fun f => sqlForColumn f a.onDelete))
        (gen2Extra (gen2Fields a.fieldTokens a.stamps) a.name)) ∧
    a.name ∉ gen2FkTargets (gen2Fields a.fieldTokens a.stamps) a.name := by
  constructor
  · unfold generateOne at h
    by_cases hcol : (fsExists fs (pjoin a.outDir (a.name ++ ".schema.js")) && !a.force) = true
    · simp only [hcol, if_true] at h
      exact absurd (congrArg Prod.fst h) (by simp)
    · have hcol' : (fsExists fs (pjoin a.outDir (a.name ++ ".schema.js")) && !a.force) = false := by
        simpa using hcol
      simp only [hcol', Bool.false_eq_true, if_false] at h
      have hfs : fs' = stubLoop2 a.outDir
          (gen2FkTargets (gen2Fields a.fieldTokens a.stamps) a.name)
          (fsWrite fs (pjoin a.outDir (a.name ++ ".schema.js"))
            (moduleText2 a.name ((gen2Fields a.fieldTokens a.stamps).map
              (fun f => sqlForColumn f a.onDelete))
              (gen2Extra (gen2Fields a.fieldTokens a.stamps) a.name))) :=
        (congrArg Prod.snd h).symm
      rw [hfs]
      exact stubLoop2_preserve _ _ _ _ _ (fsGet_write_self _ _ _)
  · intro hmem
    unfold gen2FkTargets at hmem
    have := (List.mem_filter.mp hmem).2
    simp at this

/-- Frame property of `main` (first revision): every pre-existing file whose
path is not the primary artifact path keeps its exact content. -/
theorem main1_frame (cfg : Cfg1) (a : List String) (fs : FS) (p c : String)
    (hget : fsGet fs p = some c)
    (hne : ∀ tbl, sanitizeTable ((a[2]?).getD "") = .ok tbl →
      p ≠ pjoin cfg.dir (tbl ++ ".schema." ++ (if cfg.asTS then "ts" else "js"))) :
    fsGet (main1 cfg a fs).2 p = some c := by
  unfold main1
  by_cases h0 : (a.isEmpty || ["-h", "--help", "help"].contains (a.headD "")) = true
  · simp only [h0, if_true]
    exact hget
  · have h0' : (a.isEmpty || ["-h", "--help", "help"].contains (a.headD "")) = false := by
      simpa using h0
    simp only [h0', Bool.false_eq_true, if_false]
    by_cases h1 : (a[0]? == some "create" && a[1]? == some "table") = true
    · simp only [h1, Bool.not_true, Bool.false_eq_true, if_false]
      rcases hsan : sanitizeTable ((a[2]?).getD "") with e | tbl
      · simp only [hsan]
        exact hget
      · simp only [hsan]
        rcases hspecs : exceptMapM parseFieldSpec (a.drop 3) with e | specs
        · simp only [hspecs]
          exact hget
        · simp only [hspecs]
          rcases hcl : exceptMapM (fun c => buildColumnSQL c ⟨cfg.onDelete, cfg.onUpdate⟩)
              (colsOf specs cfg.stamps cfg.softDelete) with e | clauses
          · simp only [hcl]
            exact hget
          · simp only [hcl]
            have hnep := hne tbl hsan
            by_cases hcol : (fsExists fs (pjoin cfg.dir (tbl ++ ".schema." ++
                (if cfg.asTS then "ts" else "js"))) && !cfg.force) = true
            · simp only [hcol, if_true]
              exact hget
            · have hcol' := (Bool.not_eq_true _).mp hcol
              simp only [hcol', Bool.false_eq_true, if_false]
              by_cases her : (cfg.ensureRefs && !(fkRefsOf specs).isEmpty) = true
              · simp only [her, if_true]
                apply ensureStubs1_preserve
                rw [fsGet_write_ne _ _ _ _ hnep]
                exact hget
              · have her' := (Bool.not_eq_true _).mp her
                simp only [her', Bool.false_eq_true, if_false]
                rw [fsGet_write_ne _ _ _ _ hnep]
                exact hget
    · have h1' := (Bool.not_eq_true _).mp h1
      simp only [h1', Bool.not_false, if_true]
      exact hget

/-- `main` (first revision) refuses to overwrite without force, writing
nothing: the returned file system is exactly the input. -/
theorem main1_collision (cfg : Cfg1) (a : List String) (fs : FS)
    (tbl : String) (specs : List Spec1) (clauses : List String)
    (h0 : (a.isEmpty || ["-h", "--help", "help"].contains (a.headD "")) = false)
    (h1 : (a[0]? == some "create" && a[1]? == some "table") = true)
    (hsan : sanitizeTable ((a[2]?).getD "") = .ok tbl)
    (hspecs : exceptMapM parseFieldSpec (a.drop 3) = .ok specs)
    (hcl : exceptMapM (fun c => buildColumnSQL c ⟨cfg.onDelete, cfg.onUpdate⟩)
      (colsOf specs cfg.stamps cfg.softDelete) = .ok clauses)
    (hex : fsExists fs (pjoin cfg.dir (tbl ++ ".schema." ++
      (if cfg.asTS then "ts" else "js"))) = true)
    (hforce : cfg.force = false) :
    main1 cfg a fs = (.error ("Refusing to overwrite: " ++
      pjoin cfg.dir (tbl ++ ".schema." ++ (if cfg.asTS then "ts" else "js")) ++
      " (use --force)"), fs) := by
  unfold main1
  simp only [h0, Bool.false_eq_true, if_false, h1, Bool.not_true, hsan, hspecs, hcl,
    hex, hforce, Bool.not_false, Bool.and_true, if_true]

/-- On a successful run of `main` (first revision), a referenced table with no
artifact in either extension gets its stub written (FK targets other than the
table itself). -/
theorem main1_stub (cfg : Cfg1) (a : List String) (fs fs' : FS) (u : Unit)
    (tbl : String) (specs : List Spec1) (t col : String)
    (h : main1 cfg a fs = (.ok u, fs'))
    (hsan : sanitizeTable ((a[2]?).getD "") = .ok tbl)
    (hspecs : exceptMapM parseFieldSpec (a.drop 3) = .ok specs)
    (h1 : (a[0]? == some "create" && a[1]? == some "table") = true)
    (h0 : (a.isEmpty || ["-h", "--help", "help"].contains (a.headD "")) = false)
    (her : cfg.ensureRefs = true)
    (hmem : (t, col) ∈ fkRefsOf specs)
    (htn : t ≠ tbl)
    (hjs : fsGet fs (pjoin cfg.dir (t ++ ".schema.js")) = none)
    (hts : fsGet fs (pjoin cfg.dir (t ++ ".schema.ts")) = none) :
    fsGet fs' (pjoin cfg.dir (t ++ ".schema.js")) = some (stub1 t) := by
  unfold main1 at h
  simp only [h0, Bool.false_eq_true, if_false, h1, Bool.not_true, hsan, hspecs] at h
  rcases hcl : exceptMapM (fun c => buildColumnSQL c ⟨cfg.onDelete, cfg.onUpdate⟩)
      (colsOf specs cfg.stamps cfg.softDelete) with e | clauses
  · rw [hcl] at h
    exact absurd (congrArg Prod.fst h) (by simp)
  · rw [hcl] at h
    by_cases hcol : (fsExists fs (pjoin cfg.dir (tbl ++ ".schema." ++
        (if cfg.asTS then "ts" else "js"))) && !cfg.force) = true
    · simp only [hcol, if_true] at h
      exact absurd (congrArg Prod.fst h) (by simp)
    · have hcol' := (Bool.not_eq_true _).mp hcol
      simp only [hcol', Bool.false_eq_true, if_false] at h
      have hrefs : (fkRefsOf specs).isEmpty = false := by
        rcases hr : fkRefsOf specs with - | ⟨r, rest⟩
        · rw [hr] at hmem
          exact absurd hmem (List.not_mem_nil _)
        · simp [List.isEmpty]
      simp only [her, hrefs, Bool.not_false, Bool.and_true, if_true, Bool.true_and] at h
      have hfs : fs' = ensureStubs1 cfg.dir (fkRefsOf specs)
          (fsWrite fs (pjoin cfg.dir (tbl ++ ".schema." ++ (if cfg.asTS then "ts" else "js")))
            (if cfg.asTS then
              fileTS1 tbl (kebabToPascal tbl ++ "Schema") cfg.version
                (ddlOf tbl clauses) (extraIdxOf specs tbl cfg.noFkIndex)
             else
              fileJS1 tbl (kebabToPascal tbl ++ "Schema") cfg.version
                (ddlOf tbl clauses) (extraIdxOf specs tbl cfg.noFkIndex))) :=
        (congrArg Prod.snd h).symm
      have hout : pjoin cfg.dir (tbl ++ ".schema." ++ (if cfg.asTS then "ts" else "js")) =
          if cfg.asTS then pjoin cfg.dir (tbl ++ ".schema.ts")
          else pjoin cfg.dir (tbl ++ ".schema.js") := by
        by_cases hasts : cfg.asTS <;> simp [hasts, pjoin, String.append_assoc]
      rw [hfs]
      apply ensureStubs1_creates _ _ _ _ ⟨col, hmem⟩
      · rw [fsGet_write_ne]
        · exact hjs
        · rw [hout]
          by_cases hasts : cfg.asTS <;> simp only [hasts, if_true, Bool.false_eq_true, if_false]
          · exact js_ne_ts_path cfg.dir t tbl
          · exact js_path_ne_of_ne cfg.dir t tbl htn
      · rw [fsGet_write_ne]
        · exact hts
        · rw [hout]
          by_cases hasts : cfg.asTS <;> simp only [hasts, if_true, Bool.false_eq_true, if_false]
          · exact fun h => htn (pjoin_append_inj cfg.dir t tbl ".schema.ts" h)
          · exact fun h => js_ne_ts_path cfg.dir tbl t h.symm

/-- When generating a `.ts` artifact, no `.js` stub ever appears for the table
itself, even when the table references itself. -/
theorem main1_self (cfg : Cfg1) (a : List String) (fs fs' : FS) (u : Unit)
    (tbl : String) (specs : List Spec1)
    (h : main1 cfg a fs = (.ok u, fs'))
    (h0 : (a.isEmpty || ["-h", "--help", "help"].contains (a.headD "")) = false)
    (h1 : (a[0]? == some "create" && a[1]? == some "table") = true)
    (hsan : sanitizeTable ((a[2]?).getD "") = .ok tbl)
    (hspecs : exceptMapM parseFieldSpec (a.drop 3) = .ok specs)
    (hasts : cfg.asTS = true)
    (hjs : fsGet fs (pjoin cfg.dir (tbl ++ ".schema.js")) = none) :
    fsGet fs' (pjoin cfg.dir (tbl ++ ".schema.js")) = none := by
  unfold main1 at h
  simp only [h0, Bool.false_eq_true, if_false, h1, Bool.not_true, hsan, hspecs, hasts,
    if_true] at h
  rcases hcl : exceptMapM (fun c => buildColumnSQL c ⟨cfg.onDelete, cfg.onUpdate⟩)
      (colsOf specs cfg.stamps cfg.softDelete) with e | clauses
  · rw [hcl] at h
    exact absurd (congrArg Prod.fst h) (by simp)
  · rw [hcl] at h
    by_cases hcol : (fsExists fs (pjoin cfg.dir (tbl ++ ".schema." ++ "ts")) && !cfg.force) = true
    · simp only [hcol, if_true] at h
      exact absurd (congrArg Prod.fst h) (by simp)
    · have hcol' := (Bool.not_eq_true _).mp hcol
      simp only [hcol', Bool.false_eq_true, if_false] at h
      have hto : pjoin cfg.dir (tbl ++ ".schema." ++ "ts") =
          pjoin cfg.dir (tbl ++ ".schema.ts") := by
        simp [pjoin, String.append_assoc]
      by_cases her : (cfg.ensureRefs && !(fkRefsOf specs).isEmpty) = true
      · simp only [her, if_true] at h
        have hfs : fs' = ensureStubs1 cfg.dir (fkRefsOf specs)
            (fsWrite fs (pjoin cfg.dir (tbl ++ ".schema." ++ "ts"))
              (fileTS1 tbl (kebabToPascal tbl ++ "Schema") cfg.version
                (ddlOf tbl clauses) (extraIdxOf specs tbl cfg.noFkIndex))) :=
          (congrArg Prod.snd h).symm
        rw [hfs]
        apply ensureStubs1_no_self_write
        · unfold fsExists
          rw [hto, fsGet_write_self]
          rfl
        · rw [fsGet_write_ne]
          · exact hjs
          · rw [hto]
            exact js_ne_ts_path cfg.dir tbl tbl
      · have her' := (Bool.not_eq_true _).mp her
        simp only [her', Bool.false_eq_true, if_false] at h
        have hfs : fs' = fsWrite fs (pjoin cfg.dir (tbl ++ ".schema." ++ "ts"))
            (fileTS1 tbl (kebabToPascal tbl ++ "Schema") cfg.version
              (ddlOf tbl clauses) (extraIdxOf specs tbl cfg.noFkIndex)) :=
          (congrArg Prod.snd h).symm
        rw [hfs, fsGet_write_ne]
        · exact hjs
        · rw [hto]
          exact js_ne_ts_path cfg.dir tbl tbl

/-- In the default `.js` mode, the primary artifact path ends the run holding
the full generated module — so a self-referencing FK can never have replaced it
with a stub (the stub loop skips every table whose `.js` artifact exists). -/
theorem main1_self_js (cfg : Cfg1) (a : List String) (fs fs' : FS) (u : Unit)
    (tbl : String) (specs : List Spec1) (clauses : List String)
    (h : main1 cfg a fs = (.ok u, fs'))
    (h0 : (a.isEmpty || ["-h", "--help", "help"].contains (a.headD "")) = false)
    (h1 : (a[0]? == some "create" && a[1]? == some "table") = true)
    (hsan : sanitizeTable ((a[2]?).getD "") = .ok tbl)
    (hspecs : exceptMapM parseFieldSpec (a.drop 3) = .ok specs)
    (hcl : exceptMapM (fun c => buildColumnSQL c ⟨cfg.onDelete, cfg.onUpdate⟩)
      (colsOf specs cfg.stamps cfg.softDelete) = .ok clauses)
    (hasts : cfg.asTS = false) :
    fsGet fs' (pjoin cfg.dir (tbl ++ ".schema.js")) =
      some (fileJS1 tbl (kebabToPascal tbl ++ "Schema") cfg.version
        (ddlOf tbl clauses) (extraIdxOf specs tbl cfg.noFkIndex)) := by
  unfold main1 at h
  simp only [h0, Bool.false_eq_true, if_false, h1, Bool.not_true, hsan, hspecs, hcl,
    hasts] at h
  by_cases hcol : (fsExists fs (pjoin cfg.dir (tbl ++ ".schema." ++ "js")) &&
      !cfg.force) = true
  · simp only [hcol, if_true] at h
    exact absurd (congrArg Prod.fst h) (by simp)
  · have hcol' := (Bool.not_eq_true _).mp hcol
    simp only [hcol', Bool.false_eq_true, if_false] at h
    have hto : pjoin cfg.dir (tbl ++ ".schema." ++ "js") =
        pjoin cfg.dir (tbl ++ ".schema.js") := by
      simp [pjoin, String.append_assoc]
    by_cases her : (cfg.ensureRefs && !(fkRefsOf specs).isEmpty) = true
    · simp only [her, if_true] at h
      have hfs : fs' = ensureStubs1 cfg.dir (fkRefsOf specs)
          (fsWrite fs (pjoin cfg.dir (tbl ++ ".schema." ++ "js"))
            (fileJS1 tbl (kebabToPascal tbl ++ "Schema") cfg.version
              (ddlOf tbl clauses) (extraIdxOf specs tbl cfg.noFkIndex))) :=
        (congrArg Prod.snd h).symm
      rw [hfs]
      apply ensureStubs1_preserve
      rw [hto, fsGet_write_self]
    · have her' := (Bool.not_eq_true _).mp her
      simp only [her', Bool.false_eq_true, if_false] at h
      have hfs : fs' = fsWrite fs (pjoin cfg.dir (tbl ++ ".schema." ++ "js"))
          (fileJS1 tbl (kebabToPascal tbl ++ "Schema") cfg.version
            (ddlOf tbl clauses) (extraIdxOf specs tbl cfg.noFkIndex)) :=
        (congrArg Prod.snd h).symm
      rw [hfs, hto, fsGet_write_self]

/-- A referenced table owning only a pre-existing `.ts` artifact never receives
a `.js` stub: the stub loop treats either extension as an existing artifact. -/
theorem main1_no_stub_ts (cfg : Cfg1) (a : List String) (fs fs' : FS) (u : Unit)
    (tbl : String) (specs : List Spec1) (t : String)
    (h : main1 cfg a fs = (.ok u, fs'))
    (h0 : (a.isEmpty || ["-h", "--help", "help"].contains (a.headD "")) = false)
    (h1 : (a[0]? == some "create" && a[1]? == some "table") = true)
    (hsan : sanitizeTable ((a[2]?).getD "") = .ok tbl)
    (hspecs : exceptMapM parseFieldSpec (a.drop 3) = .ok specs)
    (htn : t ≠ tbl)
    (hts : fsExists fs (pjoin cfg.dir (t ++ ".schema.ts")) = true)
    (hjs : fsGet fs (pjoin cfg.dir (t ++ ".schema.js")) = none) :
    fsGet fs' (pjoin cfg.dir (t ++ ".schema.js")) = none := by
  unfold main1 at h
  simp only [h0, Bool.false_eq_true, if_false, h1, Bool.not_true, hsan, hspecs] at h
  rcases hcl : exceptMapM (fun c => buildColumnSQL c ⟨cfg.onDelete, cfg.onUpdate⟩)
      (colsOf specs cfg.stamps cfg.softDelete) with e | clauses
  · rw [hcl] at h
    exact absurd (congrArg Prod.fst h) (by simp)
  · rw [hcl] at h
    by_cases hcol : (fsExists fs (pjoin cfg.dir (tbl ++ ".schema." ++
        (if cfg.asTS then "ts" else "js"))) && !cfg.force) = true
    · simp only [hcol, if_true] at h
      exact absurd (congrArg Prod.fst h) (by simp)
    · have hcol' := (Bool.not_eq_true _).mp hcol
      simp only [hcol', Bool.false_eq_true, if_false] at h
      have hout : pjoin cfg.dir (tbl ++ ".schema." ++ (if cfg.asTS then "ts" else "js")) =
          if cfg.asTS then pjoin cfg.dir (tbl ++ ".schema.ts")
          else pjoin cfg.dir (tbl ++ ".schema.js") := by
        by_cases hasts : cfg.asTS <;> simp [hasts, pjoin, String.append_assoc]
      have hne1 : pjoin cfg.dir (t ++ ".schema.js") ≠
          pjoin cfg.dir (tbl ++ ".schema." ++ (if cfg.asTS then "ts" else "js")) := by
        rw [hout]
        by_cases hasts : cfg.asTS <;>
          simp only [hasts, if_true, Bool.false_eq_true, if_false]
        · exact js_ne_ts_path cfg.dir t tbl
        · exact js_path_ne_of_ne cfg.dir t tbl htn
      have hne2 : pjoin cfg.dir (t ++ ".schema.ts") ≠
          pjoin cfg.dir (tbl ++ ".schema." ++ (if cfg.asTS then "ts" else "js")) := by
        rw [hout]
        by_cases hasts : cfg.asTS <;>
          simp only [hasts, if_true, Bool.false_eq_true, if_false]
        · exact fun he => htn (pjoin_append_inj cfg.dir t tbl ".schema.ts" he)
        · exact fun he => js_ne_ts_path cfg.dir tbl t he.symm
      by_cases her : (cfg.ensureRefs && !(fkRefsOf specs).isEmpty) = true
      · simp only [her, if_true] at h
        have hfs : fs' = ensureStubs1 cfg.dir (fkRefsOf specs)
            (fsWrite fs (pjoin cfg.dir (tbl ++ ".schema." ++
                (if cfg.asTS then "ts" else "js")))
              (if cfg.asTS then
                fileTS1 tbl (kebabToPascal tbl ++ "Schema") cfg.version
                  (ddlOf tbl clauses) (extraIdxOf specs tbl cfg.noFkIndex)
               else
                fileJS1 tbl (kebabToPascal tbl ++ "Schema") cfg.version
                  (ddlOf tbl clauses) (extraIdxOf specs tbl cfg.noFkIndex))) :=
          (congrArg Prod.snd h).symm
        rw [hfs]
        apply ensureStubs1_no_self_write
        · unfold fsExists
          rw [fsGet_write_ne _ _ _ _ hne2]
          exact hts
        · rw [fsGet_write_ne _ _ _ _ hne1]
          exact hjs
      · have her' := (Bool.not_eq_true _).mp her
        simp only [her', Bool.false_eq_true, if_false] at h
        have hfs : fs' = fsWrite fs (pjoin cfg.dir (tbl ++ ".schema." ++
              (if cfg.asTS then "ts" else "js")))
            (if cfg.asTS then
              fileTS1 tbl (kebabToPascal tbl ++ "Schema") cfg.version
                (ddlOf tbl clauses) (extraIdxOf specs tbl cfg.noFkIndex)
             else
              fileJS1 tbl (kebabToPascal tbl ++ "Schema") cfg.version
                (ddlOf tbl clauses) (extraIdxOf specs tbl cfg.noFkIndex)) :=
          (congrArg Prod.snd h).symm
        rw [hfs, fsGet_write_ne _ _ _ _ hne1]
        exact hjs

theorem c3_theorem :
    (∀ (a : Gen2Args) (fs : FS) (p c : String),
      p ≠ pjoin a.outDir (a.name ++ ".schema.js") → fsGet fs p = some c →
      fsGet (generateOne a fs).2 p = some c) ∧
    (∀ (a : Gen2Args) (fs fs' : FS) (u : Unit) (t : String),
      generateOne a fs = (.ok u, fs') →
      t ∈ gen2FkTargets (gen2Fields a.fieldTokens a.stamps) a.name →
      fsGet fs (pjoin a.outDir (t ++ ".schema.js")) = none →
      fsGet fs' (pjoin a.outDir (t ++ ".schema.js")) = some (stub2 t)) ∧
    (∀ (a : Gen2Args) (fs fs' : FS) (u : Unit),
      generateOne a fs = (.ok u, fs') →
      fsGet fs' (pjoin a.outDir (a.name ++ ".schema.js")) =
        some (moduleText2 a.name ((gen2Fields a.fieldTokens a.stamps).map
          (fun f => sqlForColumn f a.onDelete))
          (gen2Extra (gen2Fields a.fieldTokens a.stamps) a.name)) ∧
      a.name ∉ gen2FkTargets (gen2Fields a.fieldTokens a.stamps) a.name) ∧
    (∀ (cfg : Cfg1) (a : List String) (fs : FS) (p c : String),
      fsGet fs p = some c →
      (∀ tbl, sanitizeTable ((a[2]?).getD "") = .ok tbl →
        p ≠ pjoin cfg.dir (tbl ++ ".schema." ++ (if cfg.asTS then "ts" else "js"))) →
      fsGet (main1 cfg a fs).2 p = some c) ∧
    (∀ (cfg : Cfg1) (a : List String) (fs fs' : FS) (u : Unit)
      (tbl : String) (specs : List Spec1) (t col : String),
      main1 cfg a fs = (.ok u, fs') →
      sanitizeTable ((a[2]?).getD "") = .ok tbl →
      exceptMapM parseFieldSpec (a.drop 3) = .ok specs →
      (a[0]? == some "create" && a[1]? == some "table") = true →
      (a.isEmpty || ["-h", "--help", "help"].contains (a.headD "")) = false →
      cfg.ensureRefs = true →
      (t, col) ∈ fkRefsOf specs →
      t ≠ tbl →
      fsGet fs (pjoin cfg.dir (t ++ ".schema.js")) = none →
      fsGet fs (pjoin cfg.dir (t ++ ".schema.ts")) = none →
      fsGet fs' (pjoin cfg.dir (t ++ ".schema.js")) = some (stub1 t)) ∧
    (∀ (cfg : Cfg1) (a : List String) (fs fs' : FS) (u : Unit)
      (tbl : String) (specs : List Spec1),
      main1 cfg a fs = (.ok u, fs') →
      (a.isEmpty || ["-h", "--help", "help"].contains (a.headD "")) = false →
      (a[0]? == some "create" && a[1]? == some "table") = true →
      sanitizeTable ((a[2]?).getD "") = .ok tbl →
      exceptMapM parseFieldSpec (a.drop 3) = .ok specs →
      cfg.asTS = true →
      fsGet fs (pjoin cfg.dir (tbl ++ ".schema.js")) = none →
      fsGet fs' (pjoin cfg.dir (tbl ++ ".schema.js")) = none) ∧
    (∀ (cfg : Cfg1) (a : List String) (fs fs' : FS) (u : Unit)
      (tbl : String) (specs : List Spec1) (clauses : List String),
      main1 cfg a fs = (.ok u, fs') →
      (a.isEmpty || ["-h", "--help", "help"].contains (a.headD "")) = false →
      (a[0]? == some "create" && a[1]? == some "table") = true →
      sanitizeTable ((a[2]?).getD "") = .ok tbl →
      exceptMapM parseFieldSpec (a.drop 3) = .ok specs →
      exceptMapM (fun c => buildColumnSQL c ⟨cfg.onDelete, cfg.onUpdate⟩)
        (colsOf specs cfg.stamps cfg.softDelete) = .ok clauses →
      cfg.asTS = false →
      fsGet fs' (pjoin cfg.dir (tbl ++ ".schema.js")) =
        some (fileJS1 tbl (kebabToPascal tbl ++ "Schema") cfg.version
          (ddlOf tbl clauses) (extraIdxOf specs tbl cfg.noFkIndex))) ∧
    (∀ (cfg : Cfg1) (a : List String) (fs fs' : FS) (u : Unit)
      (tbl : String) (specs : List Spec1) (t : String),
      main1 cfg a fs = (.ok u, fs') →
      (a.isEmpty || ["-h", "--help", "help"].contains (a.headD "")) = false →
      (a[0]? == some "create" && a[1]? == some "table") = true →
      sanitizeTable ((a[2]?).getD "") = .ok tbl →
      exceptMapM parseFieldSpec (a.drop 3) = .ok specs →
      t ≠ tbl →
      fsExists fs (pjoin cfg.dir (t ++ ".schema.ts")) = true →
      fsGet fs (pjoin cfg.dir (t ++ ".schema.js")) = none →
      fsGet fs' (pjoin cfg.dir (t ++ ".schema.js")) = none) :=
  ⟨generateOne_frame, generateOne_stub, generateOne_self, main1_frame, main1_stub,
   main1_self, main1_self_js, main1_no_stub_ts⟩

theorem c3_witness :
    fsGet (generateOne ⟨"d", "m", false, none, true, ["org_id:integer->orgs"]⟩
        [("d/x.schema.js", "OLD")]).2 "d/x.schema.js" = some "OLD" ∧
    fsGet (generateOne ⟨"d", "m", false, none, true, ["org_id:integer->orgs"]⟩
        [("d/x.schema.js", "OLD")]).2 (pjoin "d" ("orgs" ++ ".schema.js")) =
      some (stub2 "orgs") ∧
    ("m" : String) ∉ gen2FkTargets (gen2Fields ["org_id:integer->orgs"] false) "m" ∧
    fsGet (main1 { dir := "d", asTS := true, force := false }
        ["create", "table", "posts", "self_id>posts", "user_id>users"] []).2
      (pjoin "d" ("users" ++ ".schema.js")) = some (stub1 "users") ∧
    fsGet (main1 { dir := "d", asTS := true, force := false }
        ["create", "table", "posts", "self_id>posts", "user_id>users"] []).2
      (pjoin "d" ("posts" ++ ".schema.js")) = none ∧
    fsGet (main1 { dir := "d" } ["create", "table", "posts", "self_id>posts"] []).2
      (pjoin "d" ("posts" ++ ".schema.js")) =
      some (fileJS1 "posts" (kebabToPascal "posts" ++ "Schema") 1
        (ddlOf "posts" ["id INTEGER PRIMARY KEY AUTOINCREMENT",
          "self_id INTEGER REFERENCES posts(id)"])
        (extraIdxOf [.field ⟨"self_id", "INTEGER", [], some ⟨"posts", "id", []⟩, false⟩]
          "posts" false)) ∧
    fsGet (main1 { dir := "d" } ["create", "table", "posts", "user_id>users"]
        [("d/users.schema.ts", "TSOLD")]).2
      (pjoin "d" ("users" ++ ".schema.js")) = none := by
  refine ⟨?_, ?_, ?_, ?_, ?_, ?_, ?_⟩
  · exact c3_theorem.1 ⟨"d", "m", false, none, true, ["org_id:integer->orgs"]⟩
      [("d/x.schema.js", "OLD")] "d/x.schema.js" "OLD" (by decide) rfl
  · exact c3_theorem.2.1 ⟨"d", "m", false, none, true, ["org_id:integer->orgs"]⟩
      [("d/x.schema.js", "OLD")] _ () "orgs" rfl (by decide) rfl
  · exact (c3_theorem.2.2.1 ⟨"d", "m", false, none, true, ["org_id:integer->orgs"]⟩
      [("d/x.schema.js", "OLD")] _ () rfl).2
  · exact c3_theorem.2.2.2.2.1 { dir := "d", asTS := true, force := false }
      ["create", "table", "posts", "self_id>posts", "user_id>users"] [] _ ()
      "posts"
      [.field ⟨"self_id", "INTEGER", [], some ⟨"posts", "id", []⟩, false⟩,
       .field ⟨"user_id", "INTEGER", [], some ⟨"users", "id", []⟩, false⟩]
      "users" "id" rfl rfl rfl (by decide) (by decide) rfl (by decide) (by decide) rfl rfl
  · exact c3_theorem.2.2.2.2.2.1 { dir := "d", asTS := true, force := false }
      ["create", "table", "posts", "self_id>posts", "user_id>users"] [] _ ()
      "posts"
      [.field ⟨"self_id", "INTEGER", [], some ⟨"posts", "id", []⟩, false⟩,
       .field ⟨"user_id", "INTEGER", [], some ⟨"users", "id", []⟩, false⟩]
      rfl (by decide) (by decide) rfl rfl rfl rfl
  · exact c3_theorem.2.2.2.2.2.2.1 { dir := "d" }
      ["create", "table", "posts", "self_id>posts"] [] _ () "posts"
      [.field ⟨"self_id", "INTEGER", [], some ⟨"posts", "id", []⟩, false⟩]
      ["id INTEGER PRIMARY KEY AUTOINCREMENT", "self_id INTEGER REFERENCES posts(id)"]
      rfl (by decide) (by decide) rfl rfl rfl rfl
  · exact c3_theorem.2.2.2.2.2.2.2 { dir := "d" }
      ["create", "table", "posts", "user_id>users"] [("d/users.schema.ts", "TSOLD")] _ ()
      "posts"
      [.field ⟨"user_id", "INTEGER", [], some ⟨"users", "id", []⟩, false⟩]
      "users" rfl (by decide) (by decide) rfl rfl (by decide) rfl rfl

theorem parseArgStep_force (a : String) (out : Cfg1) :
    (parseArgStep a out).force = (out.force || ("--force" == a || "-f" == a)) := by
  have hpre : ∀ (p : String), sStarts a p = true → sStarts "--force" p = false →
      sStarts "-f" p = false → ("--force" == a) = false ∧ ("-f" == a) = false := by
    intro p hp hf1 hf2
    constructor
    · rw [beq_eq_false_iff_ne]
      intro he
      rw [← he] at hp
      rw [hp] at hf1
      exact Bool.noConfusion hf1
    · rw [beq_eq_false_iff_ne]
      intro he
      rw [← he] at hp
      rw [hp] at hf2
      exact Bool.noConfusion hf2
  unfold parseArgStep
  by_cases h1 : a = "--"
  · rw [if_pos h1]
    subst h1
    simp
  · rw [if_neg h1]
    by_cases h2 : a = "--ts"
    · rw [if_pos h2]
      subst h2
      simp
    · rw [if_neg h2]
      by_cases h3 : sStarts a "--dir=" = true
      · rw [if_pos h3]
        obtain ⟨hf1, hf2⟩ := hpre "--dir=" h3 (by decide) (by decide)
        simp [hf1, hf2]
      · rw [if_neg h3]
        by_cases h4 : sStarts a "--version=" = true
        · rw [if_pos h4]
          obtain ⟨hf1, hf2⟩ := hpre "--version=" h4 (by decide) (by decide)
          simp [hf1, hf2]
        · rw [if_neg h4]
          by_cases h5 : a = "--stamps"
          · rw [if_pos h5]
            subst h5
            simp
          · rw [if_neg h5]
            by_cases h6 : a = "--soft-delete"
            · rw [if_pos h6]
              subst h6
              simp
            · rw [if_neg h6]
              by_cases h7 : (decide (a = "--force") || decide (a = "-f")) = true
              · rw [if_pos h7]
                have h7p : a = "--force" ∨ a = "-f" := by simpa using h7
                rcases h7p with rfl | rfl <;> simp
              · rw [if_neg h7]
                have h7n : ¬(a = "--force" ∨ a = "-f") := by simpa using h7
                have hf1 : ("--force" == a) = false := beq_eq_false_iff_ne.mpr (fun h => h7n (Or.inl h.symm))
                have hf2 : ("-f" == a) = false := beq_eq_false_iff_ne.mpr (fun h => h7n (Or.inr h.symm))
                by_cases h8 : a = "--ensure-refs"
                · rw [if_pos h8]
                  subst h8
                  simp
                · rw [if_neg h8]
                  by_cases h9 : a = "--no-fk-index"
                  · rw [if_pos h9]
                    subst h9
                    simp
                  · rw [if_neg h9]
                    by_cases h10 : sStarts a "--onDelete=" = true
                    · rw [if_pos h10]
                      obtain ⟨hf1, hf2⟩ := hpre "--onDelete=" h10 (by decide) (by decide)
                      simp [hf1, hf2]
                    · rw [if_neg h10]
                      by_cases h11 : sStarts a "--onUpdate=" = true
                      · rw [if_pos h11]
                        obtain ⟨hf1, hf2⟩ := hpre "--onUpdate=" h11 (by decide) (by decide)
                        simp [hf1, hf2]
                      · rw [if_neg h11]
                        simp [hf1, hf2]

theorem parseArgsAux_force (argv2 : List String) :
    ∀ (out : Cfg1), (parseArgsAux argv2 out).force =
      (out.force || (argv2.contains "--force" || argv2.contains "-f")) := by
  induction argv2 with
  | nil => intro out; simp [parseArgsAux]
  | cons a rest ih =>
    intro out
    unfold parseArgsAux
    rw [ih, parseArgStep_force]
    simp only [List.contains_cons]
    cases out.force <;> cases hb1 : ("--force" == a) <;> cases hb2 : ("-f" == a) <;>
      simp [hb1, hb2]

theorem parseArgs_force (argv2 : List String) (fe : Bool) (cfg : Cfg1)
    (h : parseArgs argv2 fe = .ok cfg) :
    cfg.force = ((argv2.contains "--force" || argv2.contains "-f") || fe) := by
  cases fe
  · unfold parseArgs at h
    simp only [Bool.false_eq_true, if_false] at h
    split at h
    · exact absurd h (by simp)
    · split at h
      · exact absurd h (by simp)
      · have hc : cfg = parseArgsAux argv2 {} := by simpa using h.symm
        rw [hc, parseArgsAux_force argv2 {}]
        simp
  · unfold parseArgs at h
    simp only [if_true] at h
    split at h
    · exact absurd h (by simp)
    · split at h
      · exact absurd h (by simp)
      · have hc : cfg = { parseArgsAux argv2 {} with force := true } := by simpa using h.symm
        rw [hc]
        simp

theorem parseArgs_env_indep (argv2 : List String) (f1 f2 : Bool) :
    (parseArgs argv2 f1).map (fun c => c.nonFlags) =
    (parseArgs argv2 f2).map (fun c => c.nonFlags) := by
  have key : ∀ fb : Bool, (parseArgs argv2 fb).map (fun c => c.nonFlags) =
      (parseArgs argv2 false).map (fun c => c.nonFlags) := by
    intro fb
    cases fb
    · rfl
    · unfold parseArgs
      simp only [if_true, Bool.false_eq_true, if_false]
      by_cases h1 : (optTruthy (parseArgsAux argv2 {}).onDelete &&
          !(VALID_ACTIONS.contains ((parseArgsAux argv2 {}).onDelete.getD ""))) = true
      · simp only [h1, if_true]
      · have h1' := (Bool.not_eq_true _).mp h1
        simp only [h1', Bool.false_eq_true, if_false]
        by_cases h2 : (optTruthy (parseArgsAux argv2 {}).onUpdate &&
            !(VALID_ACTIONS.contains ((parseArgsAux argv2 {}).onUpdate.getD ""))) = true
        · simp only [h2, if_true]
        · have h2' := (Bool.not_eq_true _).mp h2
          simp only [h2', Bool.false_eq_true, if_false, Except.map]
  rw [key f1, key f2]

theorem parseOptionStep_force (a : String) (acc acc2 : POAcc)
    (h : parseOptionStep a acc = .ok acc2) :
    acc2.force = (acc.force || ("-f" == a || "--force" == a)) := by
  have hpre : ∀ (p : String), sStarts a p = true → sStarts "-f" p = false →
      sStarts "--force" p = false → ("-f" == a) = false ∧ ("--force" == a) = false := by
    intro p hp hf1 hf2
    constructor
    · rw [beq_eq_false_iff_ne]
      intro he
      rw [← he] at hp
      rw [hp] at hf1
      exact Bool.noConfusion hf1
    · rw [beq_eq_false_iff_ne]
      intro he
      rw [← he] at hp
      rw [hp] at hf2
      exact Bool.noConfusion hf2
  unfold parseOptionStep at h
  by_cases h1 : (decide (a = "--help") || decide (a = "-h")) = true
  · rw [if_pos h1] at h
    exact absurd h (by simp)
  · rw [if_neg h1] at h
    by_cases h2 : sStarts a "--dir=" = true
    · rw [if_pos h2] at h
      obtain ⟨hf1, hf2⟩ := hpre "--dir=" h2 (by decide) (by decide)
      have hc : acc2 = { acc with dir := String.mk (a.data.drop 6) } := by simpa using h.symm
      rw [hc]
      simp [hf1, hf2]
    · rw [if_neg h2] at h
      by_cases h3 : a = "--stamps"
      · rw [if_pos h3] at h
        have hc : acc2 = { acc with stamps := true } := by simpa using h.symm
        subst h3
        rw [hc]
        simp
      · rw [if_neg h3] at h
        by_cases h4 : sStarts a "--onDelete=" = true
        · rw [if_pos h4] at h
          obtain ⟨hf1, hf2⟩ := hpre "--onDelete=" h4 (by decide) (by decide)
          by_cases h4b : (!(VALID_ONDELETE2.contains (sLower (String.mk (a.data.drop 11))))) = true
          · rw [if_pos h4b] at h
            exact absurd h (by simp)
          · rw [if_neg h4b] at h
            have hc : acc2 = { acc with onDelete := some (sLower (String.mk (a.data.drop 11))) } := by
              simpa using h.symm
            rw [hc]
            simp [hf1, hf2]
        · rw [if_neg h4] at h
          by_cases h5 : (decide (a = "-f") || decide (a = "--force")) = true
          · rw [if_pos h5] at h
            have hc : acc2 = { acc with force := true } := by simpa using h.symm
            have h5' : a = "-f" ∨ a = "--force" := by simpa using h5
            rw [hc]
            rcases h5' with rfl | rfl <;> simp
          · rw [if_neg h5] at h
            have h5' : ¬(a = "-f" ∨ a = "--force") := by simpa using h5
            have hf1 : ("-f" == a) = false :=
              beq_eq_false_iff_ne.mpr (fun hh => h5' (Or.inl hh.symm))
            have hf2 : ("--force" == a) = false :=
              beq_eq_false_iff_ne.mpr (fun hh => h5' (Or.inr hh.symm))
            by_cases h6 : a = "--print-json-schema"
            · rw [if_pos h6] at h
              have hc : acc2 = { acc with printJsonSchema := true } := by simpa using h.symm
              rw [hc]
              simp [hf1, hf2]
            · rw [if_neg h6] at h
              by_cases h7 : sStarts a "-" = true
              · rw [if_pos h7] at h
                exact absurd h (by simp)
              · rw [if_neg h7] at h
                have hc : acc2 = { acc with positional := acc.positional ++ [a] } := by
                  simpa using h.symm
                rw [hc]
                simp [hf1, hf2]

theorem parseOptionsAux_force (args : List String) :
    ∀ (acc acc2 : POAcc), parseOptionsAux args acc = .ok acc2 →
      acc2.force = (acc.force || (args.contains "-f" || args.contains "--force")) := by
  induction args with
  | nil =>
    intro acc acc2 h
    unfold parseOptionsAux at h
    have hc : acc2 = acc := by simpa using h.symm
    rw [hc]
    simp
  | cons a rest ih =>
    intro acc acc2 h
    unfold parseOptionsAux at h
    rcases hstep : parseOptionStep a acc with e | acc1
    · rw [hstep] at h
      exact absurd h (by simp)
    · rw [hstep] at h
      rw [ih acc1 acc2 h, parseOptionStep_force a acc acc1 hstep]
      simp only [List.contains_cons]
      cases acc.force <;> cases hb1 : ("-f" == a) <;> cases hb2 : ("--force" == a) <;>
        simp [hb1, hb2]

theorem parseOptions_force (args : List String) (env : String) (o : Opts2)
    (h : parseOptions args env = .ok o) :
    o.force = ((args.contains "-f" || args.contains "--force") || (env == "1")) := by
  unfold parseOptions at h
  rcases haux : parseOptionsAux args {} with e | acc
  · rw [haux] at h
    exact absurd h (by simp)
  · rw [haux] at h
    have hro := (Except.ok.injEq _ _ ▸ h : _ = o)
    rw [← hro]
    rw [parseOptionsAux_force args {} acc haux]
    simp

theorem parseOptions_env_indep (args : List String) (e1 e2 : String) :
    (parseOptions args e1).map (fun o => (o.table, o.fields)) =
    (parseOptions args e2).map (fun o => (o.table, o.fields)) := by
  unfold parseOptions
  rcases haux : parseOptionsAux args {} with e | acc <;> simp [Except.map]

theorem c4_theorem :
    (∀ (argv : List String) (env : String),
      FORCE_EFFECTIVE argv env = (FORCE_FROM_ENV env || FORCE_FROM_ARGV argv)) ∧
    (∀ (argv2 : List String) (fe : Bool) (cfg : Cfg1), parseArgs argv2 fe = .ok cfg →
      cfg.force = ((argv2.contains "--force" || argv2.contains "-f") || fe)) ∧
    (∀ (argv2 : List String) (f1 f2 : Bool),
      (parseArgs argv2 f1).map (fun c => c.nonFlags) =
      (parseArgs argv2 f2).map (fun c => c.nonFlags)) ∧
    (∀ (cfg : Cfg1) (a : List String) (fs : FS)
      (tbl : String) (specs : List Spec1) (clauses : List String),
      (a.isEmpty || ["-h", "--help", "help"].contains (a.headD "")) = false →
      (a[0]? == some "create" && a[1]? == some "table") = true →
      sanitizeTable ((a[2]?).getD "") = .ok tbl →
      exceptMapM parseFieldSpec (a.drop 3) = .ok specs →
      exceptMapM (fun c => buildColumnSQL c ⟨cfg.onDelete, cfg.onUpdate⟩)
        (colsOf specs cfg.stamps cfg.softDelete) = .ok clauses →
      fsExists fs (pjoin cfg.dir (tbl ++ ".schema." ++
        (if cfg.asTS then "ts" else "js"))) = true →
      cfg.force = false →
      main1 cfg a fs = (.error ("Refusing to overwrite: " ++
        pjoin cfg.dir (tbl ++ ".schema." ++ (if cfg.asTS then "ts" else "js")) ++
        " (use --force)"), fs)) ∧
    (∀ (args : List String) (env : String) (o : Opts2), parseOptions args env = .ok o →
      o.force = ((args.contains "-f" || args.contains "--force") || (env == "1"))) ∧
    (∀ (args : List String) (e1 e2 : String),
      (parseOptions args e1).map (fun o => (o.table, o.fields)) =
      (parseOptions args e2).map (fun o => (o.table, o.fields))) ∧
    (∀ (a : Gen2Args) (fs : FS),
      fsExists fs (pjoin a.outDir (a.name ++ ".schema.js")) = true →
      a.force = false →
      generateOne a fs = (.error ("Refusing to overwrite existing file: " ++
        pjoin a.outDir (a.name ++ ".schema.js") ++ "\n(use -f or ALLEZ_FORCE=1)"), fs)) :=
  ⟨fun _ _ => rfl, parseArgs_force, parseArgs_env_indep, main1_collision,
   parseOptions_force, parseOptions_env_indep, generateOne_collision⟩

theorem c4_witness :
    (({ nonFlags := ["create", "table", "x"], force := true } : Cfg1).force =
      ((["create", "table", "x", "--force"].contains "--force" ||
        ["create", "table", "x", "--force"].contains "-f") || false)) ∧
    main1 { force := false } ["create", "table", "t0"]
        [("schemas/t0.schema.js", "OLD")] =
      (.error ("Refusing to overwrite: " ++ pjoin "schemas" ("t0" ++ ".schema." ++
        (if false then "ts" else "js")) ++ " (use --force)"),
       [("schemas/t0.schema.js", "OLD")]) ∧
    (({ dir := "schemas_cli", stamps := false, onDelete := none, force := true,
        cmd := some "create", sub := some "table", table := some "r", fields := [],
        jsonFile := none, printJsonSchema := false } : Opts2).force =
      ((["create", "table", "r"].contains "-f" ||
        ["create", "table", "r"].contains "--force") || ("1" == "1"))) ∧
    generateOne ⟨"d", "m", false, none, false, []⟩ [("d/m.schema.js", "OLD")] =
      (.error ("Refusing to overwrite existing file: " ++ pjoin "d" ("m" ++ ".schema.js") ++
        "\n(use -f or ALLEZ_FORCE=1)"), [("d/m.schema.js", "OLD")]) := by
  refine ⟨?_, ?_, ?_, ?_⟩
  · exact c4_theorem.2.1 ["create", "table", "x", "--force"] false
      { nonFlags := ["create", "table", "x"], force := true } rfl
  · exact c4_theorem.2.2.2.1 { force := false } ["create", "table", "t0"]
      [("schemas/t0.schema.js", "OLD")] "t0" [] ["id INTEGER PRIMARY KEY AUTOINCREMENT"]
      (by decide) (by decide) rfl rfl rfl rfl rfl
  · exact c4_theorem.2.2.2.2.1 ["create", "table", "r"] "1"
      { dir := "schemas_cli", stamps := false, onDelete := none, force := true,
        cmd := some "create", sub := some "table", table := some "r", fields := [],
        jsonFile := none, printJsonSchema := false } rfl
  · exact c4_theorem.2.2.2.2.2.2 ⟨"d", "m", false, none, false, []⟩
      [("d/m.schema.js", "OLD")] rfl rfl

theorem setAdd_nodup (l : List String) (x : String) (h : l.Nodup) : (setAdd l x).Nodup := by
  unfold setAdd
  by_cases hm : x ∈ l
  · simp [List.elem_iff, hm, h]
  · simp [List.elem_iff, hm, List.nodup_append, h]

theorem setAdd_mem (l : List String) (x y : String) :
    y ∈ setAdd l x ↔ (y ∈ l ∨ y = x) := by
  unfold setAdd
  by_cases hm : x ∈ l
  · simp only [List.elem_iff, hm, if_true]
    constructor
    · exact Or.inl
    · rintro (h | rfl)
      · exact h
      · exact hm
  · simp [List.elem_iff, hm]

theorem extraIdxStep_nodup (table : String) (noFkIndex : Bool) (acc : List String)
    (s : Spec1) (h : acc.Nodup) : (extraIdxStep table noFkIndex acc s).Nodup := by
  unfold extraIdxStep
  cases s with
  | indexOnly n => exact setAdd_nodup _ _ h
  | field f =>
    simp only
    by_cases hw : f.wantsIndex <;> by_cases hfk : (f.fk.isSome && !noFkIndex) = true <;>
      simp only [hw, hfk, if_true, if_false, Bool.false_eq_true] <;>
      first
      | exact setAdd_nodup _ _ (setAdd_nodup _ _ h)
      | exact setAdd_nodup _ _ h
      | exact h

theorem extraIdxStep_mono (table : String) (noFkIndex : Bool) (acc : List String)
    (s : Spec1) (y : String) (h : y ∈ acc) : y ∈ extraIdxStep table noFkIndex acc s := by
  unfold extraIdxStep
  cases s with
  | indexOnly n => exact (setAdd_mem _ _ _).mpr (Or.inl h)
  | field f =>
    simp only
    by_cases hw : f.wantsIndex <;> by_cases hfk : (f.fk.isSome && !noFkIndex) = true <;>
      simp only [hw, hfk, if_true, if_false, Bool.false_eq_true] <;>
      first
      | exact (setAdd_mem _ _ _).mpr (Or.inl ((setAdd_mem _ _ _).mpr (Or.inl h)))
      | exact (setAdd_mem _ _ _).mpr (Or.inl h)
      | exact h

theorem extraIdxFold_mono (table : String) (noFkIndex : Bool) (specs : List Spec1) :
    ∀ (acc : List String) (y : String), y ∈ acc →
      y ∈ specs.foldl (extraIdxStep table noFkIndex) acc := by
  induction specs with
  | nil => intro acc y h; simpa using h
  | cons s rest ih =>
    intro acc y h
    rw [List.foldl_cons]
    exact ih _ y (extraIdxStep_mono table noFkIndex acc s y h)

theorem extraIdxOf_nodup (specs : List Spec1) (table : String) (noFkIndex : Bool) :
    (extraIdxOf specs table noFkIndex).Nodup := by
  unfold extraIdxOf
  suffices h : ∀ (acc : List String), acc.Nodup →
      (specs.foldl (extraIdxStep table noFkIndex) acc).Nodup by
    exact h [] List.nodup_nil
  induction specs with
  | nil => intro acc h; simpa using h
  | cons s rest ih =>
    intro acc h
    rw [List.foldl_cons]
    exact ih _ (extraIdxStep_nodup table noFkIndex acc s h)

theorem extraIdxFold_fk_mem (table : String) (f : Field1) (hfk : f.fk.isSome = true)
    (specs : List Spec1) :
    ∀ (acc : List String), Spec1.field f ∈ specs →
      ("CREATE INDEX IF NOT EXISTS idx_" ++ table ++ "_" ++ f.name ++ "_fk ON " ++
        table ++ "(" ++ f.name ++ ");") ∈ specs.foldl (extraIdxStep table false) acc := by
  induction specs with
  | nil => intro acc h; simp at h
  | cons s rest ih =>
    intro acc h
    rw [List.foldl_cons]
    rcases List.mem_cons.mp h with rfl | h2
    · apply extraIdxFold_mono
      unfold extraIdxStep
      simp only
      have hc : (f.fk.isSome && !false) = true := by simp [hfk]
      by_cases hw : f.wantsIndex <;>
        simp only [hw, hc, if_true, if_false, Bool.false_eq_true] <;>
        exact (setAdd_mem _ _ _).mpr (Or.inr rfl)
    · exact ih _ h2

theorem extraIdxOf_fk_mem (specs : List Spec1) (table : String) (f : Field1)
    (hmem : Spec1.field f ∈ specs) (hfk : f.fk.isSome = true) :
    ("CREATE INDEX IF NOT EXISTS idx_" ++ table ++ "_" ++ f.name ++ "_fk ON " ++
      table ++ "(" ++ f.name ++ ");") ∈ extraIdxOf specs table false :=
  extraIdxFold_fk_mem table f hfk specs [] hmem

/-- C6 counterexample: in the second revision the auxiliary index list is a
plain array, not a set — duplicate FK tokens yield duplicate statements. -/
theorem c6_counterexample :
    gen2Extra (gen2Fields ["a->t", "a->t"] false) "x" =
      ["`CREATE INDEX IF NOT EXISTS idx_x_a_fk ON x(a);`",
       "`CREATE INDEX IF NOT EXISTS idx_x_a_fk ON x(a);`"] ∧
    ¬ (gen2Extra (gen2Fields ["a->t", "a->t"] false) "x").Nodup := by
  constructor
  · rfl
  · decide

/-- C6 (amended): in the first revision the auxiliary statements are
deduplicated (accumulated into a JS `Set`), so every FK-carrying field in the
spec list yields exactly one `idx_<table>_<col>_fk` statement when FK indexing
is not suppressed; the concrete token `user_id:text->users` under a table-wide
`onDelete=cascade` compiles, in both revisions, to the clause
`user_id TEXT REFERENCES users(id) ON DELETE CASCADE` plus exactly one such
index statement. In the second revision the list is NOT deduplicated (see the
counterexample) and there is no FK-index suppression option. -/
theorem c6_amended :
    (∀ (specs : List Spec1) (table : String) (noFkIndex : Bool),
        (extraIdxOf specs table noFkIndex).Nodup) ∧
    (∀ (specs : List Spec1) (table : String) (f : Field1),
        Spec1.field f ∈ specs → f.fk.isSome = true →
        (extraIdxOf specs table false).count
          ("CREATE INDEX IF NOT EXISTS idx_" ++ table ++ "_" ++ f.name ++ "_fk ON " ++
            table ++ "(" ++ f.name ++ ");") = 1) ∧
    (∃ f : Field1, parseFieldSpec "user_id:text->users" = .ok (.field f) ∧
        buildColumnSQL f ⟨some "cascade", none⟩ =
          .ok "user_id TEXT REFERENCES users(id) ON DELETE CASCADE" ∧
        extraIdxOf [.field f] "posts" false =
          ["CREATE INDEX IF NOT EXISTS idx_posts_user_id_fk ON posts(user_id);"]) ∧
    (∃ g : Field2, parseFieldToken "user_id:text->users" = some g ∧
        sqlForColumn g (some "cascade") =
          "user_id TEXT REFERENCES users(id) ON DELETE CASCADE" ∧
        gen2Extra [g] "posts" =
          ["`CREATE INDEX IF NOT EXISTS idx_posts_user_id_fk ON posts(user_id);`"]) := by
  refine ⟨extraIdxOf_nodup, ?_, ?_, ?_⟩
  · intro specs table f hmem hfk
    exact List.count_eq_one_of_mem (extraIdxOf_nodup specs table false)
      (extraIdxOf_fk_mem specs table f hmem hfk)
  · exact ⟨⟨"user_id", "TEXT", [], some ⟨"users", "id", []⟩, false⟩, rfl, rfl, rfl⟩
  · exact ⟨⟨"user_id", "TEXT", false, false, some ⟨"users", "id"⟩, false⟩, rfl, rfl, rfl⟩

/-- C6 witness: the amended theorem instantiated on the `user_id:text->users`
field in table `posts`. -/
theorem c6_witness :
    (extraIdxOf [Spec1.field ⟨"user_id", "TEXT", [], some ⟨"users", "id", []⟩, false⟩]
        "posts" false).Nodup ∧
    (extraIdxOf [Spec1.field ⟨"user_id", "TEXT", [], some ⟨"users", "id", []⟩, false⟩]
        "posts" false).count
      ("CREATE INDEX IF NOT EXISTS idx_" ++ "posts" ++ "_" ++ "user_id" ++ "_fk ON " ++
        "posts" ++ "(" ++ "user_id" ++ ");") = 1 :=
  ⟨c6_amended.1 [Spec1.field ⟨"user_id", "TEXT", [], some ⟨"users", "id", []⟩, false⟩]
      "posts" false,
   c6_amended.2.1 [Spec1.field ⟨"user_id", "TEXT", [], some ⟨"users", "id", []⟩, false⟩]
      "posts" ⟨"user_id", "TEXT", [], some ⟨"users", "id", []⟩, false⟩
      (List.mem_singleton.mpr rfl) (by decide)⟩

/-- C9 counterexample: the missing-fields-array error names the table by its
*name*, never by its index — the message for the second table (index 1)
contains no index at all — although the artifact persistence does hold. -/
theorem c9_counterexample :
    (runFromJson cfgC9 "out" false []).1 =
      .error "Table \"projects\" must have \"fields\" (or \"Fields\"/\"columns\"/\"Columns\") array." ∧
    strContains
      "Table \"projects\" must have \"fields\" (or \"Fields\"/\"columns\"/\"Columns\") array."
      "index" = false := by
  constructor
  · rfl
  · decide

/-- C9 (amended): a table entry whose name is missing (or not a string, or
empty) fails citing the table *index*; a field object missing its name fails
citing the enclosing table's *name* and the field index (not the table index);
a table missing every fields/Fields/columns/Columns array fails citing the
table's *name* (not its index); the batch aborts at the first failing table,
leaving the file system exactly as that step left it, so artifacts already
written for earlier tables persist — concretely, in the two-table document
`cfgC9` the run fails with the `projects`-by-name message while
`out/t0.schema.js` exists and no `projects` artifact does. -/
theorem c9_amended :
    (∀ (outDir : String) (dod : Option String) (force : Bool) (ti : Nat) (tj : Json)
        (fs : FS),
        (∀ s : String, jPick (if jTruthy tj then tj else Json.obj []) ["name", "Name"] ≠
          some (Json.str s)) →
        stepTable outDir dod force ti tj fs =
          (.error ("Table at index " ++ toString ti ++ " is missing \"name\"."), fs)) ∧
    (∀ (fj : Json) (tName : String) (fi : Nat),
        (∀ s : String, jPick (if jTruthy fj then fj else Json.obj []) ["name", "Name"] ≠
          some (Json.str s)) →
        tokenOfField fj tName fi =
          .error ("Table \"" ++ tName ++ "\" field #" ++ toString fi ++
            " is missing \"name\".")) ∧
    (∀ (outDir : String) (dod : Option String) (force : Bool) (ti : Nat) (tj : Json)
        (fs : FS) (tName : String),
        jPick (if jTruthy tj then tj else Json.obj []) ["name", "Name"] =
          some (Json.str tName) →
        tName ≠ "" →
        (∀ l : List Json,
          jPick (if jTruthy tj then tj else Json.obj [])
            ["fields", "Fields", "columns", "Columns"] ≠ some (Json.arr l)) →
        stepTable outDir dod force ti tj fs =
          (.error ("Table \"" ++ tName ++
            "\" must have \"fields\" (or \"Fields\"/\"columns\"/\"Columns\") array."), fs)) ∧
    (∀ (outDir : String) (dod : Option String) (force : Bool) (ti : Nat) (t : Json)
        (rest : List Json) (fs fs1 : FS) (e : String),
        stepTable outDir dod force ti t fs = (.error e, fs1) →
        processTables outDir dod force ti (t :: rest) fs = (.error e, fs1)) ∧
    ((runFromJson cfgC9 "out" false []).1 =
        .error "Table \"projects\" must have \"fields\" (or \"Fields\"/\"columns\"/\"Columns\") array." ∧
      fsExists (runFromJson cfgC9 "out" false []).2 "out/t0.schema.js" = true ∧
      fsExists (runFromJson cfgC9 "out" false []).2 "out/projects.schema.js" = false) := by
  refine ⟨?_, ?_, ?_, ?_, by constructor; rfl; constructor; rfl; rfl⟩
  · intro outDir dod force ti tj fs hname
    unfold stepTable
    cases h : jPick (if jTruthy tj then tj else Json.obj []) ["name", "Name"] with
    | none => simp [h]
    | some v =>
      cases v with
      | str s => exact absurd h (hname s)
      | null => simp [h]
      | bool b => simp [h]
      | num n => simp [h]
      | arr l => simp [h]
      | obj l => simp [h]
  · intro fj tName fi hname
    unfold tokenOfField
    cases h : jPick (if jTruthy fj then fj else Json.obj []) ["name", "Name"] with
    | none => simp [h]
    | some v =>
      cases v with
      | str s => exact absurd h (hname s)
      | null => simp [h]
      | bool b => simp [h]
      | num n => simp [h]
      | arr l => simp [h]
      | obj l => simp [h]
  · intro outDir dod force ti tj fs tName hn htn hfl
    unfold stepTable
    simp only [hn]
    rw [if_neg htn]
  · intro outDir dod force ti t rest fs fs1 e h
    unfold processTables
    rw [h]

/-- C9 witness: the amended validation statements instantiated on concrete
table and field objects. -/
theorem c9_witness :
    stepTable "o" none false 4 (Json.obj []) [] =
      (.error ("Table at index " ++ toString 4 ++ " is missing \"name\"."), []) ∧
    tokenOfField (Json.obj []) "projects" 2 =
      .error ("Table \"" ++ "projects" ++ "\" field #" ++ toString 2 ++
        " is missing \"name\".") ∧
    stepTable "o" none false 1 (Json.obj [("name", Json.str "projects")]) [] =
      (.error ("Table \"" ++ "projects" ++
        "\" must have \"fields\" (or \"Fields\"/\"columns\"/\"Columns\") array."), []) ∧
    processTables "o" none false 1 [Json.obj [("name", Json.str "projects")]] [] =
      (.error ("Table \"" ++ "projects" ++
        "\" must have \"fields\" (or \"Fields\"/\"columns\"/\"Columns\") array."), []) :=
  ⟨c9_amended.1 "o" none false 4 (Json.obj []) []
      (by intro s; simp [jTruthy, jPick, jLookup]),
   c9_amended.2.1 (Json.obj []) "projects" 2
      (by intro s; simp [jTruthy, jPick, jLookup]),
   c9_amended.2.2.1 "o" none false 1 (Json.obj [("name", Json.str "projects")]) []
      "projects" (by simp [jTruthy, jPick, jLookup]) (by decide)
      (by intro l; simp [jTruthy, jPick, jLookup]),
   c9_amended.2.2.2.1 "o" none false 1 (Json.obj [("name", Json.str "projects")]) [] [] []
      ("Table \"" ++ "projects" ++
        "\" must have \"fields\" (or \"Fields\"/\"columns\"/\"Columns\") array.")
      (by rfl)⟩

theorem charOfNat_toNat (n : Nat) (h2 : n < 55296) : (Char.ofNat n).toNat = n := by
  unfold Char.ofNat
  rw [dif_pos (by unfold Nat.isValidChar; omega)]
  rfl

theorem toLower_idem (c : Char) : Char.toLower (Char.toLower c) = Char.toLower c := by
  unfold Char.toLower
  by_cases h : c.toNat ≥ 65 ∧ c.toNat ≤ 90
  · rw [if_pos h]
    have hv : (Char.ofNat (c.toNat + 32)).toNat = c.toNat + 32 :=
      charOfNat_toNat _ (by omega)
    rw [if_neg (by rw [hv]; omega)]
  · rw [if_neg h, if_neg h]

theorem isWordChar_not_space (x : Char) (h : isWordChar x = true) : jsIsSpace x = false := by
  cases hs : jsIsSpace x
  · rfl
  · exfalso
    simp only [jsIsSpace, Bool.or_eq_true, decide_eq_true_eq] at hs
    rcases hs with ((rfl | rfl) | rfl) | rfl <;> exact absurd h (by decide)

/-- Every character of a sanitized name is space-free and a fixed point of
lowercasing and of the word-character replacement. -/
theorem sanitizeCore_chars (s : String) (d : Char) (hd : d ∈ (sanitizeCore s).data) :
    jsIsSpace d = false ∧ Char.toLower d = d ∧ (if isWordChar d then d else '_') = d := by
  unfold sanitizeCore at hd
  rw [List.map_map] at hd
  simp only [List.mem_map, Function.comp] at hd
  obtain ⟨c, _, rfl⟩ := hd
  by_cases hw : isWordChar (Char.toLower c) = true
  · simp only [hw, if_true]
    exact ⟨isWordChar_not_space _ hw, toLower_idem c, by simp [hw]⟩
  · simp only [hw, Bool.false_eq_true, if_false]
    exact ⟨by decide, by decide, by decide⟩

theorem dropWhile_eq_self_of_none (p : Char → Bool) (l : List Char)
    (h : ∀ x ∈ l, p x = false) : l.dropWhile p = l := by
  cases l with
  | nil => rfl
  | cons a as => simp [List.dropWhile_cons, h a (List.mem_cons_self a as)]

theorem map_eq_self_of_fix (f : Char → Char) (l : List Char) (h : ∀ x ∈ l, f x = x) :
    l.map f = l := by
  induction l with
  | nil => rfl
  | cons a as ih =>
    simp only [List.map_cons, h a (List.mem_cons_self a as), List.cons.injEq, true_and]
    exact ih (fun x hx => h x (List.mem_cons_of_mem a hx))

theorem sanitizeCore_idem (s : String) : sanitizeCore (sanitizeCore s) = sanitizeCore s := by
  have hch := sanitizeCore_chars s
  have htrim : chTrim (sanitizeCore s).data = (sanitizeCore s).data := by
    unfold chTrim
    rw [dropWhile_eq_self_of_none _ _ (fun x hx => (hch x hx).1),
        dropWhile_eq_self_of_none _ _ (fun x hx => (hch x (List.mem_reverse.mp hx)).1),
        List.reverse_reverse]
  conv_lhs => rw [sanitizeCore]
  rw [htrim,
      map_eq_self_of_fix _ _ (fun x hx => (hch x hx).2.1),
      map_eq_self_of_fix _ _ (fun x hx => (hch x hx).2.2)]

/-- C10 counterexample: the second revision never sanitizes — the FK target
`Us ers` survives verbatim into the REFERENCES clause, and the table name
`Us ers` survives verbatim into the artifact path, although its sanitized
form would be `us_ers`. -/
theorem c10_counterexample :
    parseFieldToken "a->Us ers" =
      some ⟨"a", "TEXT", false, false, some ⟨"Us ers", "id"⟩, false⟩ ∧
    sqlForColumn ⟨"a", "TEXT", false, false, some ⟨"Us ers", "id"⟩, false⟩ none =
      "a TEXT REFERENCES Us ers(id)" ∧
    sanitizeCore "Us ers" = "us_ers" ∧
    ("Us ers" : String) ≠ "us_ers" ∧
    fsExists (generateOne ⟨"o", "Us ers", false, none, false, []⟩ []).2
      "o/Us ers.schema.js" = true := by
  refine ⟨by decide, by decide, by decide, by decide, rfl⟩

/-- C10 (amended): in the first revision every table name is sanitized —
`sanitizeCore` is exactly trim, then lowercase, then replacement of every
non-word character by an underscore; `sanitizeTable` rejects exactly the names
sanitizing to the empty string and otherwise returns the sanitized name; FK
shorthand targets pass through `sanitizeTable`; and `main` consumes the table
argument only through its sanitized form (pre-sanitizing it changes nothing,
and a name sanitizing to empty is rejected).  The second revision performs no
sanitization at all (see the counterexample). -/
theorem c10_amended :
    (∀ name : String, sanitizeCore name =
      String.mk ((sLower (sTrim name)).data.map (fun c => if isWordChar c then c else '_'))) ∧
    (∀ name : String,
      (sanitizeTable name = .error "Invalid table name." ↔ sanitizeCore name = "") ∧
      (sanitizeCore name ≠ "" → sanitizeTable name = .ok (sanitizeCore name))) ∧
    (∀ (specRaw left rhs : String) (ntf : NTF) (tbl : String) (colQ : Option String)
        (f : Field1),
      parseNameTypeFlags left = .ok ntf →
      matchFkRhs rhs = some (tbl, colQ) →
      parseFkShorthand specRaw left rhs = .ok (.field f) →
      f.fk.map FK1.table = some (sanitizeCore tbl)) ∧
    (∀ (cfg : Cfg1) (raw : String) (rest : List String) (fs : FS),
      main1 cfg ("create" :: "table" :: raw :: rest) fs =
        main1 cfg ("create" :: "table" :: sanitizeCore raw :: rest) fs) ∧
    (∀ (cfg : Cfg1) (raw : String) (rest : List String) (fs : FS),
      sanitizeCore raw = "" →
      main1 cfg ("create" :: "table" :: raw :: rest) fs =
        (.error "Invalid table name.", fs)) := by
  refine ⟨fun name => rfl, ?_, ?_, ?_, ?_⟩
  · intro name
    unfold sanitizeTable
    constructor
    · by_cases he : sanitizeCore name = "" <;> simp [he]
    · intro he
      simp [he]
  · intro specRaw left rhs ntf tbl colQ f h1 h2 h3
    have h := (parseFkShorthand_spec specRaw left rhs ntf tbl colQ f h1 h2 h3).1
    simp [h]
  · intro cfg raw rest fs
    have hst : sanitizeTable (sanitizeCore raw) = sanitizeTable raw := by
      unfold sanitizeTable
      rw [sanitizeCore_idem]
    unfold main1
    simp [hst]
  · intro cfg raw rest fs he
    have hst : sanitizeTable raw = .error "Invalid table name." := by
      unfold sanitizeTable
      simp [he]
    unfold main1
    simp [hst]

/-- C10 witness: the amended sanitization statements at concrete names. -/
theorem c10_witness :
    sanitizeTable " " = .error "Invalid table name." ∧
    sanitizeTable "x" = .ok (sanitizeCore "x") ∧
    ((⟨"uid", "INTEGER", [], some ⟨"users", "id", []⟩, false⟩ : Field1).fk.map FK1.table =
      some (sanitizeCore "Users")) ∧
    main1 {} ("create" :: "table" :: " " :: []) [] = (.error "Invalid table name.", []) :=
  ⟨(c10_amended.2.1 " ").1.mpr (by decide),
   (c10_amended.2.1 "x").2 (by decide),
   c10_amended.2.2.1 "uid>Users" "uid" "Users" ⟨"uid", "", [], false⟩ "Users" none
     ⟨"uid", "INTEGER", [], some ⟨"users", "id", []⟩, false⟩ rfl rfl rfl,
   c10_amended.2.2.2.2 {} " " [] [] (by decide)⟩
